import Mathlib

/-!
Verification of the airspace world-model core of the `neurlaplay` repository:
geometry primitives, aircraft tracks, the conflict-detection engine
(`core/conflict_detector.py`), the airport topology (`domain/airport_topology.py`)
and the world-model orchestrator (`core/world_model.py`).

The Python source is shallowly embedded: floats become real numbers, Python
`None` becomes `Option`, Python's `float('inf')` (used by
`Aircraft.separation_from`) is modelled with `EReal`, and the insertion-ordered
Python `dict` becomes an association list with insertion-ordered operations.
Python's stable `list.sort(key=...)` is modelled by a stable insertion sort.
Textual `description` fields and log statements (pure formatting of the other
fields) and the conflict `timestamp` field (wall-clock `datetime.now()`) carry
no logic and are not modelled.
-/

namespace NeurlaPlay

noncomputable section

/-- `math.radians`: degrees to radians. -/
def radians (d : ℝ) : ℝ := d * (Real.pi / 180)

/-- `math.degrees`: radians to degrees. -/
def degrees (r : ℝ) : ℝ := r * (180 / Real.pi)

/-- Python float modulo `x % 360` (result in `[0, 360)` for positive modulus). -/
def fmod360 (x : ℝ) : ℝ := x - 360 * ⌊x / 360⌋

/-- `math.atan2 y x` (note: Python's argument order is `atan2(y, x)`). -/
def atan2 (y x : ℝ) : ℝ :=
  if 0 < x then Real.arctan (y / x)
  else if x < 0 ∧ 0 ≤ y then Real.arctan (y / x) + Real.pi
  else if x < 0 ∧ y < 0 then Real.arctan (y / x) - Real.pi
  else if x = 0 ∧ 0 < y then Real.pi / 2
  else if x = 0 ∧ y < 0 then -(Real.pi / 2)
  else 0

/-- `domain/models.py` `Position`: geographic position with altitude. -/
structure Position where
  lat : ℝ
  lon : ℝ
  altitude_ft : ℝ := 0
  timestamp : ℝ := 0
deriving DecidableEq

/-- Earth radius in nautical miles used by `Position.distance_to`. -/
def earthRadiusNm : ℝ := 3440.065

/-- `Position.distance_to`: Haversine great-circle distance in nautical miles. -/
def Position.distance_to (p other : Position) : ℝ :=
  let lat1 := radians p.lat
  let lon1 := radians p.lon
  let lat2 := radians other.lat
  let lon2 := radians other.lon
  let dlat := lat2 - lat1
  let dlon := lon2 - lon1
  let a := Real.sin (dlat / 2) ^ 2 +
    Real.cos lat1 * Real.cos lat2 * Real.sin (dlon / 2) ^ 2
  let c := 2 * Real.arcsin (Real.sqrt a)
  earthRadiusNm * c

/-- `Position.bearing_to`: initial bearing in degrees, normalized to `[0, 360)`. -/
def Position.bearing_to (p other : Position) : ℝ :=
  let lat1 := radians p.lat
  let lon1 := radians p.lon
  let lat2 := radians other.lat
  let lon2 := radians other.lon
  let dlon := lon2 - lon1
  let x := Real.sin dlon * Real.cos lat2
  let y := Real.cos lat1 * Real.sin lat2 -
    Real.sin lat1 * Real.cos lat2 * Real.cos dlon
  let bearing := degrees (atan2 x y)
  fmod360 (bearing + 360)

/-- The distance of a point to itself is zero (`asin (sqrt 0) = 0`). -/
theorem Position.distance_to_self_coords (p q : Position)
    (hlat : p.lat = q.lat) (hlon : p.lon = q.lon) :
    p.distance_to q = 0 := by
  simp [Position.distance_to, hlat, hlon]

theorem Position.distance_to_comm (p q : Position) :
    p.distance_to q = q.distance_to p := by
  have hsin : ∀ a b : ℝ, Real.sin ((a - b) / 2) ^ 2 = Real.sin ((b - a) / 2) ^ 2 := by
    intro a b
    rw [show (a - b) / 2 = -((b - a) / 2) by ring, Real.sin_neg]
    ring
  simp only [Position.distance_to, hsin (radians q.lat) (radians p.lat),
    hsin (radians q.lon) (radians p.lon),
    mul_comm (Real.cos (radians p.lat)) (Real.cos (radians q.lat))]

theorem radians_div_two (x : ℝ) : radians x / 2 = x * (Real.pi / 360) := by
  unfold radians; ring

/-- `sin (radians d / 2) = 0` forces `d = 0` when `|d| < 360`. -/
theorem sin_radians_half_eq_zero_iff {d : ℝ} (h : |d| < 360) :
    Real.sin (radians d / 2) = 0 ↔ d = 0 := by
  have hpi := Real.pi_pos
  have h360 : (0:ℝ) < Real.pi / 360 := by positivity
  obtain ⟨hlo, hhi⟩ := abs_lt.mp h
  rw [radians_div_two]
  rw [Real.sin_eq_zero_iff_of_lt_of_lt (by nlinarith) (by nlinarith)]
  constructor
  · intro hz
    rcases mul_eq_zero.mp hz with h1 | h2
    · exact h1
    · exact absurd h2 (ne_of_gt h360)
  · intro hz; rw [hz, zero_mul]

/-- `cos (radians lat) > 0` for latitudes strictly inside `(-90, 90)` degrees. -/
theorem cos_radians_pos {lat : ℝ} (h : |lat| < 90) : 0 < Real.cos (radians lat) := by
  have hpi := Real.pi_pos
  obtain ⟨hlo, hhi⟩ := abs_lt.mp h
  apply Real.cos_pos_of_mem_Ioo
  constructor
  · show -(Real.pi / 2) < lat * (Real.pi / 180)
    nlinarith
  · show lat * (Real.pi / 180) < Real.pi / 2
    nlinarith

/-- The Haversine distance vanishes exactly on equal (in-range) coordinates:
latitudes strictly between -90 and 90 degrees, longitudes in `(-180, 180]`. -/
theorem Position.distance_to_eq_zero_iff (p q : Position)
    (h1 : |p.lat| < 90) (h2 : |q.lat| < 90)
    (h3 : -180 < p.lon) (h4 : p.lon ≤ 180) (h5 : -180 < q.lon) (h6 : q.lon ≤ 180) :
    (p.distance_to q = 0 ↔ p.lat = q.lat ∧ p.lon = q.lon) := by
  constructor
  · intro hd
    unfold Position.distance_to at hd
    simp only at hd
    have key : ∀ s1 c s2 : ℝ, 0 ≤ s1 → 0 < c → 0 ≤ s2 →
        earthRadiusNm * (2 * Real.arcsin (Real.sqrt (s1 + c * s2))) = 0 →
        s1 = 0 ∧ s2 = 0 := by
      intro s1 c s2 hs1 hc hs2 hd
      have hR : (0:ℝ) < earthRadiusNm := by norm_num [earthRadiusNm]
      have harcsin : Real.arcsin (Real.sqrt (s1 + c * s2)) = 0 := by
        rcases mul_eq_zero.mp hd with h | h
        · exact absurd h (ne_of_gt hR)
        · linarith
      have hsqrt : Real.sqrt (s1 + c * s2) = 0 := by
        by_contra hne
        have hpos : 0 < Real.sqrt (s1 + c * s2) :=
          lt_of_le_of_ne (Real.sqrt_nonneg _) (Ne.symm hne)
        have := Real.arcsin_pos.mpr hpos
        linarith
      have hale : s1 + c * s2 ≤ 0 := Real.sqrt_eq_zero'.mp hsqrt
      have hcs2 : 0 ≤ c * s2 := mul_nonneg (le_of_lt hc) hs2
      constructor
      · linarith
      · have : c * s2 = 0 := by linarith
        rcases mul_eq_zero.mp this with h | h
        · exact absurd h (ne_of_gt hc)
        · exact h
    have hcos : 0 < Real.cos (radians p.lat) * Real.cos (radians q.lat) :=
      mul_pos (cos_radians_pos h1) (cos_radians_pos h2)
    obtain ⟨e1, e2⟩ := key _ _ _ (sq_nonneg _) hcos (sq_nonneg _) hd
    have hsin1 : Real.sin ((radians q.lat - radians p.lat) / 2) = 0 :=
      pow_eq_zero_iff (n := 2) (by norm_num) |>.mp e1
    have hsin2 : Real.sin ((radians q.lon - radians p.lon) / 2) = 0 :=
      pow_eq_zero_iff (n := 2) (by norm_num) |>.mp e2
    have hradsub : ∀ x y : ℝ, radians x - radians y = radians (x - y) := by
      intro x y; unfold radians; ring
    obtain ⟨hp1, hp2⟩ := abs_lt.mp h1
    obtain ⟨hq1, hq2⟩ := abs_lt.mp h2
    constructor
    · have hb : |q.lat - p.lat| < 360 := abs_lt.mpr ⟨by linarith, by linarith⟩
      have := (sin_radians_half_eq_zero_iff hb).mp (by rwa [hradsub] at hsin1)
      linarith
    · have hb : |q.lon - p.lon| < 360 := abs_lt.mpr ⟨by linarith, by linarith⟩
      have := (sin_radians_half_eq_zero_iff hb).mp (by rwa [hradsub] at hsin2)
      linarith
  · intro ⟨hl, ho⟩
    exact Position.distance_to_self_coords p q hl ho

/-- Python string comparison: lexicographic on code points (`list` order on chars). -/
def pyStrLt (s t : String) : Prop := s.data < t.data

instance (s t : String) : Decidable (pyStrLt s t) := by unfold pyStrLt; infer_instance

/-- `domain/models.py` `AircraftStatus`. -/
inductive AircraftStatus where
  | IN_FLIGHT | ON_APPROACH | ON_FINAL | LANDING | LANDED | ON_RUNWAY
  | ON_GROUND | TAXIING | AT_GATE | TAKING_OFF | DEPARTING | DEPARTED | UNKNOWN
deriving DecidableEq, Repr

/-- `domain/models.py` `Aircraft`. The dataclass defaults for `first_seen` and
`last_seen` are `datetime.now()`; they carry no logic here and default to 0. -/
structure Aircraft where
  callsign : String
  aircraft_type : String := "UNKNOWN"
  position : Option Position := none
  status : AircraftStatus := .UNKNOWN
  heading : ℝ := 0
  speed_knots : ℝ := 0
  weight_class : String := "MEDIUM"
  position_history : List Position := []
  assigned_runway : Option String := none
  assigned_gate : Option String := none
  last_clearance : Option String := none
  last_clearance_time : Option ℝ := none
  first_seen : ℝ := 0
  last_seen : ℝ := 0
  confidence : ℝ := 1
deriving DecidableEq

/-- `Aircraft.update_position`: append to history, evict the oldest entry beyond
20 (`pop(0)`), set current position and `last_seen`. The `dt` argument is
unused in the source body as well. -/
def Aircraft.update_position (ac : Aircraft) (new_position : Position)
    (_dt : ℝ := 1) : Aircraft :=
  { ac with
    position := some new_position
    position_history :=
      if 20 < (ac.position_history ++ [new_position]).length
      then (ac.position_history ++ [new_position]).drop 1
      else ac.position_history ++ [new_position]
    last_seen := new_position.timestamp }

/-- `Aircraft.velocity_vector`: `(speed_knots, heading_deg)` from the last two
history entries, `None` with fewer than 2 samples or `dt == 0`. -/
def Aircraft.velocity_vector (ac : Aircraft) : Option (ℝ × ℝ) :=
  match ac.position_history.reverse with
  | p2 :: p1 :: _ =>
    let dt := p2.timestamp - p1.timestamp
    if dt = 0 then none
    else
      let distance_nm := p1.distance_to p2
      some (distance_nm / dt * 3600, p1.bearing_to p2)
  | _ => none

/-- `Aircraft.predict_position`: dead reckoning along the velocity vector, with
the longitude delta corrected by `cos(lat)`. -/
def Aircraft.predict_position (ac : Aircraft) (dt : ℝ) : Option Position :=
  match ac.position, ac.velocity_vector with
  | some pos, some (speed_knots, heading_deg) =>
    let distance_nm := speed_knots / 3600 * dt
    let lat_change := distance_nm / 60 * Real.cos (radians heading_deg)
    let lon_change := distance_nm / 60 * Real.sin (radians heading_deg) /
      Real.cos (radians pos.lat)
    some { lat := pos.lat + lat_change, lon := pos.lon + lon_change,
           altitude_ft := pos.altitude_ft, timestamp := pos.timestamp + dt }
  | _, _ => none

/-- `Aircraft.separation_from`: great-circle separation, `float('inf')`
(modelled as `⊤ : EReal`) when either position is unknown. -/
def Aircraft.separation_from (ac other : Aircraft) : EReal :=
  match ac.position, other.position with
  | some p, some q => ((p.distance_to q : ℝ) : EReal)
  | _, _ => ⊤

/-- A sequence of `update_position` calls (the source's default `dt` of 1 is
passed; `update_position` ignores it). -/
def applyUpdates (ac : Aircraft) (ps : List Position) : Aircraft :=
  ps.foldl (fun a p => a.update_position p 1) ac

/-- C7: the claim's "= 0 iff the two aircraft are at the same position" is
false: two aircraft at the same latitude/longitude but different altitudes have
separation 0 while their positions differ (`distance_to` ignores altitude). -/
theorem C7_counterexample :
    (Aircraft.separation_from
        { callsign := "AAL1",
          position := some { lat := 10, lon := 20, altitude_ft := 1000, timestamp := 0 } }
        { callsign := "BAW2",
          position := some { lat := 10, lon := 20, altitude_ft := 2000, timestamp := 0 } }
      = ((0:ℝ) : EReal)) ∧
    (some { lat := 10, lon := 20, altitude_ft := 1000, timestamp := 0 } : Option Position) ≠
      (some { lat := 10, lon := 20, altitude_ft := 2000, timestamp := 0 } : Option Position) := by
  constructor
  · have h := Position.distance_to_self_coords
      { lat := 10, lon := 20, altitude_ft := 1000, timestamp := 0 }
      { lat := 10, lon := 20, altitude_ft := 2000, timestamp := 0 } rfl rfl
    show ((Position.distance_to _ _ : ℝ) : EReal) = _
    rw [h]
  · simp only [ne_eq, Option.some.injEq, Position.mk.injEq]
    intro ⟨_, _, h, _⟩
    norm_num at h

/-- C7 (amended): for aircraft with known positions, `separation_from` is
symmetric; and it is 0 iff the two aircraft share latitude and longitude,
provided the coordinates are in range (|lat| < 90, lon ∈ (-180, 180]) —
altitude and timestamp are not distinguished. -/
theorem C7_separation_symm_zero_iff (a b : Aircraft) (pa pb : Position)
    (hpa : a.position = some pa) (hpb : b.position = some pb) :
    a.separation_from b = b.separation_from a ∧
    (|pa.lat| < 90 → |pb.lat| < 90 →
      -180 < pa.lon → pa.lon ≤ 180 → -180 < pb.lon → pb.lon ≤ 180 →
      (a.separation_from b = ((0:ℝ) : EReal) ↔ pa.lat = pb.lat ∧ pa.lon = pb.lon)) := by
  unfold Aircraft.separation_from
  rw [hpa, hpb]
  constructor
  · show ((pa.distance_to pb : ℝ) : EReal) = ((pb.distance_to pa : ℝ) : EReal)
    rw [Position.distance_to_comm pa pb]
  · intro h1 h2 h3 h4 h5 h6
    show ((pa.distance_to pb : ℝ) : EReal) = ((0:ℝ) : EReal) ↔ _
    rw [EReal.coe_eq_coe_iff]
    exact Position.distance_to_eq_zero_iff pa pb h1 h2 h3 h4 h5 h6

/-- Witness for C7's amended theorem at two concrete aircraft at the origin. -/
theorem C7_witness :
    (Aircraft.separation_from { callsign := "AAL1", position := some ⟨0, 0, 0, 0⟩ }
        { callsign := "BAW2", position := some ⟨0, 0, 100, 0⟩ } =
      Aircraft.separation_from { callsign := "BAW2", position := some ⟨0, 0, 100, 0⟩ }
        { callsign := "AAL1", position := some ⟨0, 0, 0, 0⟩ }) ∧
    (|(0:ℝ)| < 90 → |(0:ℝ)| < 90 → (-180:ℝ) < 0 → (0:ℝ) ≤ 180 → (-180:ℝ) < 0 → (0:ℝ) ≤ 180 →
      (Aircraft.separation_from { callsign := "AAL1", position := some ⟨0, 0, 0, 0⟩ }
          { callsign := "BAW2", position := some ⟨0, 0, 100, 0⟩ } = ((0:ℝ) : EReal) ↔
        (0:ℝ) = 0 ∧ (0:ℝ) = 0)) :=
  C7_separation_symm_zero_iff _ _ ⟨0, 0, 0, 0⟩ ⟨0, 0, 100, 0⟩ rfl rfl

/-- C6: the claim's unconditional "position_history is non-decreasing in
timestamp" is false: nothing in `update_position` orders or rejects
out-of-order timestamps, so updating with timestamp 5 and then 3 yields the
history `[5, 3]`. -/
theorem C6_counterexample :
    ¬ List.Chain' (fun p q : Position => p.timestamp ≤ q.timestamp)
      (applyUpdates { callsign := "AAL1" }
        [{ lat := 0, lon := 0, altitude_ft := 0, timestamp := 5 },
         { lat := 0, lon := 0, altitude_ft := 0, timestamp := 3 }]).position_history := by
  intro h
  simp only [applyUpdates, Aircraft.update_position, List.foldl, List.nil_append,
    List.length_cons, List.length_nil, List.length_append] at h
  norm_num [List.chain'_cons] at h

/-- After `update_position`, the last history entry is the new position. -/
theorem update_position_getLast (ac : Aircraft) (p : Position) :
    (ac.update_position p 1).position_history.getLast? = some p := by
  unfold Aircraft.update_position
  simp only
  split
  next hlen =>
    rcases hh : ac.position_history with _ | ⟨x, xs⟩
    · rw [hh] at hlen; simp at hlen
    · simp only [List.cons_append, List.drop_one, List.tail_cons]
      exact List.getLast?_concat _
  next => exact List.getLast?_concat _

/-- `update_position` preserves timestamp chains: if the old history, the new
position and any pending future positions form a non-decreasing chain, so does
the updated history followed by the future positions. -/
theorem update_position_chain (ac : Aircraft) (p : Position) (rest : List Position)
    (hc : List.Chain' (fun p q : Position => p.timestamp ≤ q.timestamp)
      ((ac.position_history ++ [p]) ++ rest)) :
    List.Chain' (fun p q : Position => p.timestamp ≤ q.timestamp)
      ((ac.update_position p 1).position_history ++ rest) := by
  unfold Aircraft.update_position
  simp only
  split
  next hlen =>
    have h1 : (1:ℕ) ≤ (ac.position_history ++ [p]).length := by simp
    rw [← List.drop_append_of_le_length h1, List.drop_one]
    exact hc.tail
  next => exact hc

/-- Invariant carrier for the amended C6: if the existing history followed by
the pending updates is non-decreasing in timestamp, folding `update_position`
keeps the history non-decreasing and the current position equal to the last
history entry. -/
theorem applyUpdates_invariant (ps : List Position) :
    ∀ ac : Aircraft,
      List.Chain' (fun p q : Position => p.timestamp ≤ q.timestamp)
        (ac.position_history ++ ps) →
      (∀ last, ac.position_history.getLast? = some last → ac.position = some last) →
      (List.Chain' (fun p q : Position => p.timestamp ≤ q.timestamp)
          (applyUpdates ac ps).position_history ∧
       (∀ last, (applyUpdates ac ps).position_history.getLast? = some last →
          (applyUpdates ac ps).position = some last)) := by
  induction ps with
  | nil =>
    intro ac hc hp
    rw [List.append_nil] at hc
    exact ⟨hc, hp⟩
  | cons p rest ih =>
    intro ac hc hp
    have hassoc : ac.position_history ++ p :: rest =
        (ac.position_history ++ [p]) ++ rest := by simp
    rw [hassoc] at hc
    show List.Chain' _ (applyUpdates (ac.update_position p 1) rest).position_history ∧ _
    apply ih
    · exact update_position_chain ac p rest hc
    · intro last hlast
      have hsome : some p = some last := by
        rw [← update_position_getLast ac p, hlast]
      rw [← Option.some.inj hsome]
      rfl

/-- C6 (amended): starting from a freshly created aircraft (empty history),
if the updates arrive in non-decreasing timestamp order then
`position_history` is non-decreasing in timestamp, and the current position
always equals the last history entry when the history is non-empty. -/
theorem C6_history_invariant (ac : Aircraft) (ps : List Position)
    (h0 : ac.position_history = [])
    (hmono : List.Chain' (fun p q : Position => p.timestamp ≤ q.timestamp) ps) :
    List.Chain' (fun p q : Position => p.timestamp ≤ q.timestamp)
      (applyUpdates ac ps).position_history ∧
    (∀ last, (applyUpdates ac ps).position_history.getLast? = some last →
      (applyUpdates ac ps).position = some last) := by
  apply applyUpdates_invariant
  · rw [h0]; simpa using hmono
  · intro last hlast
    rw [h0] at hlast
    simp at hlast

/-- Witness for C6's amended theorem: two in-order updates on a fresh track. -/
theorem C6_witness :
    List.Chain' (fun p q : Position => p.timestamp ≤ q.timestamp)
      (applyUpdates { callsign := "AAL1" }
        [{ lat := 0, lon := 0, altitude_ft := 0, timestamp := 1 },
         { lat := 0, lon := 0, altitude_ft := 0, timestamp := 2 }]).position_history ∧
    (∀ last, (applyUpdates { callsign := "AAL1" }
        [{ lat := 0, lon := 0, altitude_ft := 0, timestamp := 1 },
         { lat := 0, lon := 0, altitude_ft := 0, timestamp := 2 }]).position_history.getLast? =
        some last →
      (applyUpdates { callsign := "AAL1" }
        [{ lat := 0, lon := 0, altitude_ft := 0, timestamp := 1 },
         { lat := 0, lon := 0, altitude_ft := 0, timestamp := 2 }]).position = some last) :=
  C6_history_invariant { callsign := "AAL1" } _ rfl
    (by norm_num [List.chain'_cons])

/-- `domain/models.py` `Runway`. -/
structure Runway where
  name : String
  magnetic_heading : ℝ
  length_feet : ℝ
  width_feet : ℝ := 150
  threshold_position : Option Position := none
  occupied : Bool := false
  occupied_by : Option String := none
  active : Bool := true
  ils_available : Bool := false

/-- `Runway.is_headwind`: the shortest angular distance between the runway
heading and the wind direction is at most `threshold` (default 90). -/
def Runway.is_headwind (r : Runway) (wind_direction : ℝ) (threshold : ℝ := 90) : Prop :=
  min |r.magnetic_heading - wind_direction| (360 - |r.magnetic_heading - wind_direction|)
    ≤ threshold

instance (r : Runway) (wd th : ℝ) : Decidable (r.is_headwind wd th) := by
  unfold Runway.is_headwind; infer_instance

/-- `Runway.tailwind_component` (negative = tailwind, per the source comment). -/
def Runway.tailwind_component (r : Runway) (wind_direction wind_speed : ℝ) : ℝ :=
  -wind_speed * Real.cos (radians (wind_direction - r.magnetic_heading))

/-- `core/conflict_detector.py` `Conflict` (the formatted `description` string
and the wall-clock `timestamp` carry no logic and are not modelled). -/
structure Conflict where
  aircraft1 : String
  aircraft2 : String
  conflict_type : String
  severity : String
  distance_nm : EReal
  time_to_conflict : Option ℝ := none

/-- `core/conflict_detector.py` `ConflictRule` with the source defaults. -/
structure ConflictRule where
  horizontal_separation_nm : ℝ := 3
  vertical_separation_ft : ℝ := 1000
  runway_clear_time_seconds : ℝ := 60
  wake_separation_heavy_heavy : ℝ := 4
  wake_separation_heavy_medium : ℝ := 5
  wake_separation_heavy_light : ℝ := 6
  prediction_horizon_seconds : ℝ := 120
  prediction_steps : ℕ := 12

/-- `ConflictRule()` with all defaults. -/
def defaultRules : ConflictRule := {}

/-- One pair of the `_check_horizontal_separation` double loop: skip if either
aircraft is `ON_GROUND`, emit a violation when separation is below the
horizontal minimum, `critical` below 2.0 nm and `warning` otherwise. -/
def sepConflictOfPair (rules : ConflictRule) (ac1 ac2 : Aircraft) : Option Conflict :=
  if ac1.status = AircraftStatus.ON_GROUND ∨ ac2.status = AircraftStatus.ON_GROUND then
    none
  else
    let separation_nm := ac1.separation_from ac2
    if separation_nm < ((rules.horizontal_separation_nm : ℝ) : EReal) then
      some { aircraft1 := ac1.callsign, aircraft2 := ac2.callsign,
             conflict_type := "separation_violation",
             severity := if separation_nm < ((2 : ℝ) : EReal) then "critical" else "warning",
             distance_nm := separation_nm }
    else none

/-- `_check_horizontal_separation`: all unordered pairs `(i, j)` with `i < j`
in list order. -/
def checkHorizontalSeparation (rules : ConflictRule) : List Aircraft → List Conflict
  | [] => []
  | ac1 :: rest =>
    rest.filterMap (sepConflictOfPair rules ac1) ++ checkHorizontalSeparation rules rest

/-- `_is_on_runway`: assigned to the runway with status TAKING_OFF, LANDING or
ON_RUNWAY. -/
def isOnRunway (ac : Aircraft) (runway : Runway) : Prop :=
  ac.assigned_runway = some runway.name ∧
    (ac.status = AircraftStatus.TAKING_OFF ∨ ac.status = AircraftStatus.LANDING ∨
     ac.status = AircraftStatus.ON_RUNWAY)

instance (ac : Aircraft) (r : Runway) : Decidable (isOnRunway ac r) := by
  unfold isOnRunway; infer_instance

/-- `_check_runway_incursions`: more than one aircraft on the same runway is a
single critical conflict naming the first two. -/
def checkRunwayIncursions (aircraft : List Aircraft) (runways : List Runway) :
    List Conflict :=
  runways.filterMap (fun runway =>
    match aircraft.filter (fun ac => decide (isOnRunway ac runway)) with
    | ac1 :: ac2 :: _ =>
      some { aircraft1 := ac1.callsign, aircraft2 := ac2.callsign,
             conflict_type := "runway_incursion", severity := "critical",
             distance_nm := ac1.separation_from ac2 }
    | _ => none)

/-- `_distance_to_threshold`: the source's placeholder estimate
`abs(lat) + abs(lon)` of the aircraft position (it ignores the runway; the
source raises on a missing position, which no caller reaches — modelled as 0). -/
def distanceToThreshold (ac : Aircraft) : ℝ :=
  match ac.position with
  | some p => |p.lat| + |p.lon|
  | none => 0

/-- `_required_wake_separation` from the leader/follower weight classes. -/
def requiredWakeSeparation (rules : ConflictRule) (leader follower : Aircraft) : ℝ :=
  if leader.weight_class = "HEAVY" then
    if follower.weight_class = "HEAVY" then rules.wake_separation_heavy_heavy
    else if follower.weight_class = "MEDIUM" then rules.wake_separation_heavy_medium
    else rules.wake_separation_heavy_light
  else rules.horizontal_separation_nm

/-- The runway key used to group an approaching aircraft
(`assigned_runway or "UNKNOWN"`). -/
def approachKey (ac : Aircraft) : String := ac.assigned_runway.getD "UNKNOWN"

/-- The aircraft on final approach, in list order. -/
def onFinal (aircraft : List Aircraft) : List Aircraft :=
  aircraft.filter (fun ac => ac.status = AircraftStatus.ON_FINAL)

/-- Insertion-ordered key list of a Python dict built by appending. -/
def insertKey (ks : List String) (k : String) : List String :=
  if k ∈ ks then ks else ks ++ [k]

/-- The keys of the `approaches` dict, in first-appearance order. -/
def approachRunways (aircraft : List Aircraft) : List String :=
  (onFinal aircraft).foldl (fun ks ac => insertKey ks (approachKey ac)) []

/-- The approach group for one runway key: the on-final aircraft with that
key, sorted ascending (stably, like Python's `list.sort`) by the placeholder
distance-to-threshold. -/
def approachGroupSorted (aircraft : List Aircraft) (k : String) : List Aircraft :=
  List.insertionSort (fun a b => distanceToThreshold a ≤ distanceToThreshold b)
    ((onFinal aircraft).filter (fun ac => approachKey ac = k))

/-- The adjacent (leader, follower) wake checks over one sorted approach
group. -/
def wakePairConflicts (rules : ConflictRule) : List Aircraft → List Conflict
  | leader :: follower :: rest =>
    (let required_sep := requiredWakeSeparation rules leader follower
     let actual_sep := leader.separation_from follower
     if actual_sep < ((required_sep : ℝ) : EReal) then
       [{ aircraft1 := leader.callsign, aircraft2 := follower.callsign,
          conflict_type := "wake_turbulence", severity := "warning",
          distance_nm := actual_sep }]
     else []) ++ wakePairConflicts rules (follower :: rest)
  | _ => []

/-- `_check_wake_turbulence`: group the on-final aircraft by assigned runway,
sort each group by the placeholder distance-to-threshold, and check adjacent
(leader, follower) pairs. -/
def checkWakeTurbulence (rules : ConflictRule) (aircraft : List Aircraft) :
    List Conflict :=
  (approachRunways aircraft).flatMap
    (fun k => wakePairConflicts rules (approachGroupSorted aircraft k))

/-- The inner `for ac2 in predicted[i+1:]` loop of `_predict_conflicts`: the
`break` stops at the first violating pair, so at most one conflict is emitted
per leading aircraft per step. -/
def predictInner (rules : ConflictRule) (time_ahead : ℝ) (ac1 : Aircraft)
    (pos1 : Position) : List (Aircraft × Option Position) → Option Conflict
  | [] => none
  | (ac2, some pos2) :: rest =>
    let distance := pos1.distance_to pos2
    if distance < rules.horizontal_separation_nm then
      some { aircraft1 := ac1.callsign, aircraft2 := ac2.callsign,
             conflict_type := "predicted_conflict", severity := "advisory",
             distance_nm := ((distance : ℝ) : EReal),
             time_to_conflict := some time_ahead }
    else predictInner rules time_ahead ac1 pos1 rest
  | (_, none) :: rest => predictInner rules time_ahead ac1 pos1 rest

/-- One prediction step of `_predict_conflicts` over all ordered pairs. -/
def predictStep (rules : ConflictRule) (time_ahead : ℝ) :
    List (Aircraft × Option Position) → List Conflict
  | [] => []
  | (ac1, some pos1) :: rest =>
    (match predictInner rules time_ahead ac1 pos1 rest with
     | some c => [c]
     | none => []) ++ predictStep rules time_ahead rest
  | (_, none) :: rest => predictStep rules time_ahead rest

/-- `_predict_conflicts`: steps `1..prediction_steps`, extrapolating every
aircraft by dead reckoning at each step. -/
def predictConflicts (rules : ConflictRule) (aircraft : List Aircraft) :
    List Conflict :=
  let dt := rules.prediction_horizon_seconds / (rules.prediction_steps : ℝ)
  (List.range' 1 rules.prediction_steps).flatMap (fun step =>
    let time_ahead := dt * (step : ℝ)
    predictStep rules time_ahead
      (aircraft.map (fun ac => (ac, ac.predict_position time_ahead))))

/-- `_conflict_id`: sorted callsign pair plus conflict type. -/
def conflictId (c : Conflict) : String :=
  let p := if pyStrLt c.aircraft2 c.aircraft1 then (c.aircraft2, c.aircraft1)
           else (c.aircraft1, c.aircraft2)
  p.1 ++ "_" ++ p.2 ++ "_" ++ c.conflict_type

/-- Python dict insertion: overwrite in place if the key exists, else append. -/
def dictInsert {β : Type} (m : List (String × β)) (k : String) (v : β) :
    List (String × β) :=
  if (m.map Prod.fst).contains k then
    m.map (fun p => if p.1 = k then (k, v) else p)
  else m ++ [(k, v)]

/-- `_update_active_conflicts`: the active set is replaced by the dict
`{conflict_id(c): c}` over this cycle's conflicts. -/
def updateActiveConflicts (new_conflicts : List Conflict) :
    List (String × Conflict) :=
  new_conflicts.foldl (fun m c => dictInsert m (conflictId c) c) []

/-- `conflicts.sort(key=lambda c: c.severity, reverse=True)`: Python's stable
sort, descending in the code-point order of the severity *string*. -/
def sortBySeverityDesc (conflicts : List Conflict) : List Conflict :=
  List.insertionSort (fun a b => ¬ pyStrLt a.severity b.severity) conflicts

/-- `detect_all_conflicts`: concatenate the four checks and sort by the
severity string, descending. -/
def detectAllConflicts (rules : ConflictRule) (aircraft : List Aircraft)
    (runways : List Runway) : List Conflict :=
  sortBySeverityDesc
    (checkHorizontalSeparation rules aircraft ++
     checkRunwayIncursions aircraft runways ++
     checkWakeTurbulence rules aircraft ++
     predictConflicts rules aircraft)

/-- An aircraft with no history has no velocity vector. -/
theorem velocity_vector_of_empty_history (ac : Aircraft)
    (h : ac.position_history = []) : ac.velocity_vector = none := by
  unfold Aircraft.velocity_vector
  rw [h]
  rfl

/-- An aircraft with no velocity vector has no predicted position. -/
theorem predict_position_of_no_velocity (ac : Aircraft)
    (h : ac.velocity_vector = none) (t : ℝ) : ac.predict_position t = none := by
  unfold Aircraft.predict_position
  rw [h]
  cases ac.position <;> rfl

/-- A prediction step over entries without predicted positions is empty. -/
theorem predictStep_of_none (rules : ConflictRule) (t : ℝ)
    (l : List (Aircraft × Option Position)) (h : ∀ p ∈ l, p.2 = none) :
    predictStep rules t l = [] := by
  induction l with
  | nil => rfl
  | cons p rest ih =>
    obtain ⟨ac, pos⟩ := p
    have hp : pos = none := h (ac, pos) (List.mem_cons_self _ _)
    subst hp
    rw [predictStep]
    exact ih (fun q hq => h q (List.mem_cons_of_mem _ hq))

/-- `_predict_conflicts` yields nothing when no aircraft can be extrapolated. -/
theorem predictConflicts_of_no_velocity (rules : ConflictRule)
    (aircraft : List Aircraft)
    (h : ∀ ac ∈ aircraft, ∀ t, ac.predict_position t = none) :
    predictConflicts rules aircraft = [] := by
  unfold predictConflicts
  simp only [List.flatMap_eq_nil_iff]
  intro step _
  apply predictStep_of_none
  intro p hp
  simp only [List.mem_map] at hp
  obtain ⟨ac, hac, rfl⟩ := hp
  exact h ac hac _

/-- Concrete scenario for the severity-sort evaluation: two coincident
aircraft on final to the same runway, HEAVY leading LIGHT. -/
def posO : Position := { lat := 0, lon := 0, altitude_ft := 0, timestamp := 0 }

def acHeavy : Aircraft :=
  { callsign := "AAL1", position := some posO, status := .ON_FINAL,
    weight_class := "HEAVY", assigned_runway := some "04L" }

def acLight : Aircraft :=
  { callsign := "BAW2", position := some posO, status := .ON_FINAL,
    weight_class := "LIGHT", assigned_runway := some "04L" }

theorem acHeavy_sep_acLight : acHeavy.separation_from acLight = ((0:ℝ) : EReal) := by
  show ((posO.distance_to posO : ℝ) : EReal) = _
  rw [Position.distance_to_self_coords posO posO rfl rfl]

theorem ereal_coe_lt_coe_of_lt {x y : ℝ} (h : x < y) :
    ((x : ℝ) : EReal) < ((y : ℝ) : EReal) := EReal.coe_lt_coe_iff.mpr h

/-- The separation-violation conflict produced in the scenario. -/
def sepCritC : Conflict :=
  { aircraft1 := "AAL1", aircraft2 := "BAW2",
    conflict_type := "separation_violation", severity := "critical",
    distance_nm := ((0:ℝ) : EReal) }

/-- The wake-turbulence conflict produced in the scenario. -/
def wakeWarnC : Conflict :=
  { aircraft1 := "AAL1", aircraft2 := "BAW2",
    conflict_type := "wake_turbulence", severity := "warning",
    distance_nm := ((0:ℝ) : EReal) }

theorem checkHorizontal_scenario :
    checkHorizontalSeparation defaultRules [acHeavy, acLight] = [sepCritC] := by
  show List.filterMap (sepConflictOfPair defaultRules acHeavy) [acLight] ++
      (List.filterMap (sepConflictOfPair defaultRules acLight) [] ++ []) = _
  rw [List.filterMap_nil, List.filterMap_cons, List.filterMap_nil]
  rw [sepConflictOfPair]
  rw [if_neg (by decide)]
  dsimp only
  rw [acHeavy_sep_acLight]
  rw [if_pos (ereal_coe_lt_coe_of_lt
    (show (0:ℝ) < defaultRules.horizontal_separation_nm by norm_num [defaultRules]))]
  rw [if_pos (ereal_coe_lt_coe_of_lt (by norm_num : (0:ℝ) < 2))]
  rfl

theorem checkWake_scenario :
    checkWakeTurbulence defaultRules [acHeavy, acLight] = [wakeWarnC] := by
  have hgroup : approachGroupSorted [acHeavy, acLight] "04L" = [acHeavy, acLight] := by
    rw [approachGroupSorted]
    rw [show (onFinal [acHeavy, acLight]).filter (fun ac => approachKey ac = "04L") =
      [acHeavy, acLight] by rfl]
    show List.orderedInsert _ acHeavy [acLight] = _
    rw [List.orderedInsert]
    rw [if_pos (show distanceToThreshold acHeavy ≤ distanceToThreshold acLight
      from le_refl _)]
  have hkeys : approachRunways [acHeavy, acLight] = ["04L"] := by rfl
  rw [checkWakeTurbulence, hkeys]
  rw [show (["04L"].flatMap fun k =>
      wakePairConflicts defaultRules (approachGroupSorted [acHeavy, acLight] k)) =
      wakePairConflicts defaultRules (approachGroupSorted [acHeavy, acLight] "04L") ++ []
    from rfl]
  rw [hgroup, List.append_nil]
  rw [wakePairConflicts]
  dsimp only
  rw [show requiredWakeSeparation defaultRules acHeavy acLight = (6:ℝ) by rfl]
  rw [acHeavy_sep_acLight]
  rw [if_pos (ereal_coe_lt_coe_of_lt (by norm_num : (0:ℝ) < 6))]
  rfl

theorem predict_scenario :
    predictConflicts defaultRules [acHeavy, acLight] = [] := by
  apply predictConflicts_of_no_velocity
  intro ac hac t
  apply predict_position_of_no_velocity
  apply velocity_vector_of_empty_history
  simp only [List.mem_cons, List.not_mem_nil, or_false] at hac
  rcases hac with rfl | rfl <;> rfl

/-- C1: at the failing input — one critical separation violation plus one
wake-turbulence warning — `detect_all_conflicts` returns the warning *first*:
the sort key is the severity *string* compared reverse-lexicographically, and
`"warning" > "critical"` as strings. This contradicts the claimed
critical-first order (and the source's own `# Sort by severity (critical
first)` comment). -/
theorem C1_severity_sort_bug :
    (detectAllConflicts defaultRules [acHeavy, acLight] []).map Conflict.severity =
      ["warning", "critical"] := by
  rw [detectAllConflicts, checkHorizontal_scenario, checkWake_scenario, predict_scenario]
  rw [show checkRunwayIncursions [acHeavy, acLight] [] = [] from rfl]
  rw [sortBySeverityDesc]
  rw [List.append_nil, List.append_nil, List.singleton_append]
  show List.map Conflict.severity
      (List.orderedInsert (fun a b => ¬ pyStrLt a.severity b.severity) sepCritC [wakeWarnC]) =
    ["warning", "critical"]
  rw [List.orderedInsert]
  rw [if_neg (by decide)]
  rfl

/-- A track whose last two history entries share coordinates has velocity 0. -/
theorem velocity_vector_stationary (ac : Aircraft) (p q : Position)
    (hh : ac.position_history = [p, q])
    (hlat : p.lat = q.lat) (hlon : p.lon = q.lon)
    (hts : ¬ q.timestamp - p.timestamp = 0) :
    ac.velocity_vector = some (0, p.bearing_to q) := by
  unfold Aircraft.velocity_vector
  rw [hh]
  show (if q.timestamp - p.timestamp = 0 then none
    else some (p.distance_to q / (q.timestamp - p.timestamp) * 3600, p.bearing_to q)) = _
  rw [if_neg hts, Position.distance_to_self_coords p q hlat hlon]
  rw [zero_div, zero_mul]

/-- Dead reckoning at speed 0 returns the current coordinates. -/
theorem predict_position_stationary (ac : Aircraft) (pos : Position) (hdg : ℝ)
    (hpos : ac.position = some pos) (hv : ac.velocity_vector = some (0, hdg))
    (t : ℝ) :
    ac.predict_position t =
      some { lat := pos.lat, lon := pos.lon, altitude_ft := pos.altitude_ft,
             timestamp := pos.timestamp + t } := by
  unfold Aircraft.predict_position
  rw [hpos, hv]
  show some (Position.mk (pos.lat + 0 / 3600 * t / 60 * Real.cos (radians hdg))
      (pos.lon + 0 / 3600 * t / 60 * Real.sin (radians hdg) / Real.cos (radians pos.lat))
      pos.altitude_ft (pos.timestamp + t)) = _
  simp only [zero_div, zero_mul, mul_zero, add_zero]

/-- One prediction step over exactly two co-located extrapolations: one
conflict for the pair. -/
theorem predictStep_coincident_pair (rules : ConflictRule) (t : ℝ)
    (A B : Aircraft) (pA pB : Position)
    (hlat : pA.lat = pB.lat) (hlon : pA.lon = pB.lon)
    (h3 : 0 < rules.horizontal_separation_nm) :
    predictStep rules t [(A, some pA), (B, some pB)] =
      [{ aircraft1 := A.callsign, aircraft2 := B.callsign,
         conflict_type := "predicted_conflict", severity := "advisory",
         distance_nm := ((0:ℝ) : EReal), time_to_conflict := some t }] := by
  rw [predictStep]
  rw [show predictStep rules t [(B, some pB)] = [] from by rw [predictStep]; rfl]
  rw [predictInner]
  rw [Position.distance_to_self_coords pA pB hlat hlon]
  rw [if_pos h3, List.append_nil]

/-- Concrete stationary tracks with two history samples each. -/
def posT0 : Position := { lat := 0, lon := 0, altitude_ft := 0, timestamp := 0 }

def posT1 : Position := { lat := 0, lon := 0, altitude_ft := 0, timestamp := 1 }

def acStatA : Aircraft :=
  { callsign := "AAL1", position := some posT1, status := .IN_FLIGHT,
    position_history := [posT0, posT1] }

def acStatB : Aircraft :=
  { callsign := "BAW2", position := some posT1, status := .IN_FLIGHT,
    position_history := [posT0, posT1] }

/-- C2: with a 2-step horizon, the pair of stationary co-located aircraft is
reported at *both* steps: the `break` in `_predict_conflicts` only ends the
inner loop of the current step, so the pair is re-checked and re-reported at
later steps, contradicting the claimed report-earliest-only behaviour (and the
source's own `# Don't check this pair at later times` comment). -/
theorem C2_predict_reports_pair_every_step :
    predictConflicts
        { prediction_horizon_seconds := 20, prediction_steps := 2 }
        [acStatA, acStatB] =
      [{ aircraft1 := "AAL1", aircraft2 := "BAW2",
         conflict_type := "predicted_conflict", severity := "advisory",
         distance_nm := ((0:ℝ) : EReal),
         time_to_conflict := some (20 / ((2:ℕ):ℝ) * ((1:ℕ):ℝ)) },
       { aircraft1 := "AAL1", aircraft2 := "BAW2",
         conflict_type := "predicted_conflict", severity := "advisory",
         distance_nm := ((0:ℝ) : EReal),
         time_to_conflict := some (20 / ((2:ℕ):ℝ) * ((2:ℕ):ℝ)) }] := by
  have hvA : acStatA.velocity_vector = some (0, posT0.bearing_to posT1) :=
    velocity_vector_stationary acStatA posT0 posT1 rfl rfl rfl
      (by norm_num [posT0, posT1])
  have hvB : acStatB.velocity_vector = some (0, posT0.bearing_to posT1) :=
    velocity_vector_stationary acStatB posT0 posT1 rfl rfl rfl
      (by norm_num [posT0, posT1])
  have hpA : ∀ t, acStatA.predict_position t =
      some { lat := posT1.lat, lon := posT1.lon, altitude_ft := posT1.altitude_ft,
             timestamp := posT1.timestamp + t } :=
    predict_position_stationary acStatA posT1 _ rfl hvA
  have hpB : ∀ t, acStatB.predict_position t =
      some { lat := posT1.lat, lon := posT1.lon, altitude_ft := posT1.altitude_ft,
             timestamp := posT1.timestamp + t } :=
    predict_position_stationary acStatB posT1 _ rfl hvB
  unfold predictConflicts
  rw [show List.range' 1
      (ConflictRule.prediction_steps
        { prediction_horizon_seconds := 20, prediction_steps := 2 }) = [1, 2] from rfl]
  rw [List.flatMap_cons, List.flatMap_cons, List.flatMap_nil, List.append_nil]
  dsimp only
  simp only [List.map_cons, List.map_nil, hpA, hpB]
  rw [predictStep_coincident_pair _ _ _ _ _ _ rfl rfl (by norm_num),
    predictStep_coincident_pair _ _ _ _ _ _ rfl rfl (by norm_num)]
  rfl

/-- The claim-side condition of the horizontal-separation check: both aircraft
airborne (status not ON_GROUND) and separation below the horizontal minimum. -/
def sepViolation (rules : ConflictRule) (a b : Aircraft) : Prop :=
  ¬ a.status = AircraftStatus.ON_GROUND ∧ ¬ b.status = AircraftStatus.ON_GROUND ∧
    a.separation_from b < ((rules.horizontal_separation_nm : ℝ) : EReal)

instance (rules : ConflictRule) (a b : Aircraft) : Decidable (sepViolation rules a b) := by
  unfold sepViolation; infer_instance

/-- The separation-violation conflict for a violating pair: `critical` below
2.0 nm, `warning` otherwise. -/
def mkSepConflict (_rules : ConflictRule) (a b : Aircraft) : Conflict :=
  { aircraft1 := a.callsign, aircraft2 := b.callsign,
    conflict_type := "separation_violation",
    severity := if a.separation_from b < ((2:ℝ) : EReal) then "critical" else "warning",
    distance_nm := a.separation_from b }

/-- A conflict names the unordered pair `{x, y}` of callsigns. -/
def involvesPair (c : Conflict) (x y : String) : Prop :=
  (c.aircraft1 = x ∧ c.aircraft2 = y) ∨ (c.aircraft1 = y ∧ c.aircraft2 = x)

instance (c : Conflict) (x y : String) : Decidable (involvesPair c x y) := by
  unfold involvesPair; infer_instance

theorem sepConflictOfPair_eq_some (rules : ConflictRule) (a b : Aircraft)
    (h : sepViolation rules a b) :
    sepConflictOfPair rules a b = some (mkSepConflict rules a b) := by
  obtain ⟨h1, h2, h3⟩ := h
  unfold sepConflictOfPair mkSepConflict
  rw [if_neg (by push_neg; exact ⟨h1, h2⟩)]
  rw [if_pos h3]

theorem sepConflictOfPair_eq_none (rules : ConflictRule) (a b : Aircraft)
    (h : ¬ sepViolation rules a b) :
    sepConflictOfPair rules a b = none := by
  unfold sepConflictOfPair
  unfold sepViolation at h
  push_neg at h
  by_cases hg : a.status = AircraftStatus.ON_GROUND ∨ b.status = AircraftStatus.ON_GROUND
  · rw [if_pos hg]
  · rw [if_neg hg]
    push_neg at hg
    rw [if_neg (not_lt.mpr (h hg.1 hg.2))]

/-- Membership characterization of `_check_horizontal_separation`: the emitted
conflicts are exactly the `mkSepConflict`s of the violating ordered sublist
pairs. -/
theorem mem_checkHorizontalSeparation (rules : ConflictRule) (l : List Aircraft)
    (c : Conflict) :
    c ∈ checkHorizontalSeparation rules l ↔
      ∃ a b, [a, b].Sublist l ∧ sepViolation rules a b ∧ c = mkSepConflict rules a b := by
  induction l with
  | nil =>
    simp only [checkHorizontalSeparation, List.not_mem_nil, false_iff]
    rintro ⟨a, b, hs, -, -⟩
    cases hs
  | cons x rest ih =>
    rw [checkHorizontalSeparation]
    rw [List.mem_append, List.mem_filterMap, ih]
    constructor
    · rintro (⟨b, hb, hsome⟩ | ⟨a, b, hs, hv, hc⟩)
      · by_cases hv : sepViolation rules x b
        · refine ⟨x, b, ?_, hv, ?_⟩
          · exact (List.cons_sublist_cons).mpr (List.singleton_sublist.mpr hb)
          · rw [sepConflictOfPair_eq_some rules x b hv] at hsome
            exact (Option.some.inj hsome).symm
        · rw [sepConflictOfPair_eq_none rules x b hv] at hsome
          cases hsome
      · exact ⟨a, b, hs.cons x, hv, hc⟩
    · rintro ⟨a, b, hs, hv, hc⟩
      cases hs with
      | cons _ hs' =>
        exact Or.inr ⟨a, b, hs', hv, hc⟩
      | cons₂ _ hs' =>
        refine Or.inl ⟨b, List.singleton_sublist.mp hs', ?_⟩
        rw [sepConflictOfPair_eq_some rules _ b hv, hc]

/-- Every conflict from the `filterMap` row of the pair loop comes from a
violating partner in the tail. -/
theorem mem_filterMap_pair (rules : ConflictRule) (x : Aircraft)
    (rest : List Aircraft) (c : Conflict)
    (h : c ∈ rest.filterMap (sepConflictOfPair rules x)) :
    ∃ y, y ∈ rest ∧ sepViolation rules x y ∧ c = mkSepConflict rules x y := by
  rw [List.mem_filterMap] at h
  obtain ⟨y, hy, hsome⟩ := h
  by_cases hv : sepViolation rules x y
  · rw [sepConflictOfPair_eq_some _ _ _ hv] at hsome
    exact ⟨y, hy, hv, (Option.some.inj hsome).symm⟩
  · rw [sepConflictOfPair_eq_none _ _ _ hv] at hsome
    cases hsome

/-- Conflicts of the horizontal check only name callsigns present in the list. -/
theorem checkHorizontalSeparation_callsigns (rules : ConflictRule)
    (l : List Aircraft) (c : Conflict) (h : c ∈ checkHorizontalSeparation rules l) :
    c.aircraft1 ∈ l.map Aircraft.callsign ∧ c.aircraft2 ∈ l.map Aircraft.callsign := by
  rw [mem_checkHorizontalSeparation] at h
  obtain ⟨a, b, hs, -, rfl⟩ := h
  constructor
  · exact List.mem_map_of_mem _ (hs.subset (by simp))
  · exact List.mem_map_of_mem _ (hs.subset (by simp))

/-- Count of the conflicts naming `{x, b}` among the pair row of `x`:
one when the pair violates separation, zero otherwise. -/
theorem countP_filterMap_pair (rules : ConflictRule) (x : Aircraft) :
    ∀ (rest : List Aircraft) (b : Aircraft), b ∈ rest →
      (rest.map Aircraft.callsign).Nodup → x.callsign ≠ b.callsign →
      (rest.filterMap (sepConflictOfPair rules x)).countP
          (fun c => decide (involvesPair c x.callsign b.callsign)) =
        if sepViolation rules x b then 1 else 0 := by
  intro rest
  induction rest with
  | nil => intro b hb; cases hb
  | cons y rest' ih =>
    intro b hb hnodup hxb
    rw [List.map_cons, List.nodup_cons] at hnodup
    rw [List.filterMap_cons]
    have tail_zero : ∀ (s : String), s ∉ rest'.map Aircraft.callsign →
        x.callsign ≠ s →
        (rest'.filterMap (sepConflictOfPair rules x)).countP
          (fun c => decide (involvesPair c x.callsign s)) = 0 := by
      intro s hs hsx
      rw [List.countP_eq_zero]
      intro c hc
      obtain ⟨y', hy', -, rfl⟩ := mem_filterMap_pair rules x rest' c hc
      simp only [decide_eq_true_eq]
      rintro (⟨-, h2⟩ | ⟨h1, -⟩)
      · apply hs
        rw [← h2]
        exact List.mem_map_of_mem _ hy'
      · exact hsx (by rw [← h1]; rfl)
    rcases List.mem_cons.mp hb with rfl | hb'
    · by_cases hv : sepViolation rules x b
      · rw [sepConflictOfPair_eq_some _ _ _ hv, List.countP_cons]
        rw [tail_zero b.callsign hnodup.1 hxb, if_pos (by
          simp only [decide_eq_true_eq]
          exact Or.inl ⟨rfl, rfl⟩), if_pos hv]
      · rw [sepConflictOfPair_eq_none _ _ _ hv, if_neg hv]
        exact tail_zero b.callsign hnodup.1 hxb
    · have hyb : y.callsign ≠ b.callsign := by
        intro h
        exact hnodup.1 (h ▸ List.mem_map_of_mem _ hb')
      by_cases hv : sepViolation rules x y
      · rw [sepConflictOfPair_eq_some _ _ _ hv, List.countP_cons]
        rw [if_neg (by
          simp only [decide_eq_true_eq]
          rintro (⟨-, h2⟩ | ⟨h1, -⟩)
          · exact hyb (by rw [← h2]; rfl)
          · exact hxb (by rw [← h1]; rfl))]
        rw [add_zero]
        exact ih b hb' hnodup.2 hxb
      · rw [sepConflictOfPair_eq_none _ _ _ hv]
        exact ih b hb' hnodup.2 hxb

/-- Exactly-one-per-pair count for the horizontal-separation check. -/
theorem countP_checkHorizontalSeparation (rules : ConflictRule) :
    ∀ (l : List Aircraft), (l.map Aircraft.callsign).Nodup →
      ∀ a b, [a, b].Sublist l →
      (checkHorizontalSeparation rules l).countP
          (fun c => decide (involvesPair c a.callsign b.callsign)) =
        if sepViolation rules a b then 1 else 0 := by
  intro l
  induction l with
  | nil =>
    intro _ a b hs
    simp at hs
  | cons x rest ih =>
    intro hnodup a b hs
    rw [List.map_cons, List.nodup_cons] at hnodup
    rw [checkHorizontalSeparation, List.countP_append]
    cases hs with
    | cons _ hs' =>
      have ha : a.callsign ∈ rest.map Aircraft.callsign :=
        List.mem_map_of_mem _ (hs'.subset (by simp))
      have hb : b.callsign ∈ rest.map Aircraft.callsign :=
        List.mem_map_of_mem _ (hs'.subset (by simp))
      have hz : (rest.filterMap (sepConflictOfPair rules x)).countP
          (fun c => decide (involvesPair c a.callsign b.callsign)) = 0 := by
        rw [List.countP_eq_zero]
        intro c hc
        obtain ⟨y, -, -, rfl⟩ := mem_filterMap_pair rules x rest c hc
        simp only [decide_eq_true_eq]
        rintro (⟨h1, -⟩ | ⟨h1, -⟩)
        · apply hnodup.1
          rw [show x.callsign = (mkSepConflict rules x y).aircraft1 from rfl, h1]
          exact ha
        · apply hnodup.1
          rw [show x.callsign = (mkSepConflict rules x y).aircraft1 from rfl, h1]
          exact hb
      rw [hz, zero_add]
      exact ih hnodup.2 a b hs'
    | cons₂ _ hs' =>
      have hb : b ∈ rest := List.singleton_sublist.mp hs'
      have hxb : x.callsign ≠ b.callsign := by
        intro h
        apply hnodup.1
        rw [h]
        exact List.mem_map_of_mem _ hb
      have hz2 : (checkHorizontalSeparation rules rest).countP
          (fun c => decide (involvesPair c x.callsign b.callsign)) = 0 := by
        rw [List.countP_eq_zero]
        intro c hc
        obtain ⟨h1, h2⟩ := checkHorizontalSeparation_callsigns rules rest c hc
        simp only [decide_eq_true_eq]
        rintro (⟨ha1, -⟩ | ⟨-, ha2⟩)
        · apply hnodup.1
          rw [← ha1]
          exact h1
        · apply hnodup.1
          rw [← ha2]
          exact h2
      rw [countP_filterMap_pair rules x rest b hb hnodup.2 hxb, hz2, add_zero]

/-- C4: the horizontal-separation check emits exactly the separation-violation
conflicts of the airborne (non-ON_GROUND) unordered pairs closer than the
horizontal minimum, with severity `critical` below 2.0 nm and `warning`
otherwise, and exactly one conflict per such pair; ground pairs are excluded
(`sepViolation` requires both statuses ≠ ON_GROUND). -/
theorem C4_check_horizontal_separation (rules : ConflictRule) (l : List Aircraft)
    (hnodup : (l.map Aircraft.callsign).Nodup) :
    (∀ c, c ∈ checkHorizontalSeparation rules l ↔
      ∃ a b, [a, b].Sublist l ∧ sepViolation rules a b ∧ c = mkSepConflict rules a b) ∧
    (∀ a b, [a, b].Sublist l →
      (checkHorizontalSeparation rules l).countP
          (fun c => decide (involvesPair c a.callsign b.callsign)) =
        if sepViolation rules a b then 1 else 0) :=
  ⟨fun c => mem_checkHorizontalSeparation rules l c,
   countP_checkHorizontalSeparation rules l hnodup⟩

/-- Witness for C4 at the concrete two-aircraft scenario. -/
theorem C4_witness :
    (∀ c, c ∈ checkHorizontalSeparation defaultRules [acHeavy, acLight] ↔
      ∃ a b, [a, b].Sublist [acHeavy, acLight] ∧ sepViolation defaultRules a b ∧
        c = mkSepConflict defaultRules a b) ∧
    (∀ a b, [a, b].Sublist [acHeavy, acLight] →
      (checkHorizontalSeparation defaultRules [acHeavy, acLight]).countP
          (fun c => decide (involvesPair c a.callsign b.callsign)) =
        if sepViolation defaultRules a b then 1 else 0) :=
  C4_check_horizontal_separation defaultRules [acHeavy, acLight] (by
    rw [List.map_cons, List.map_cons, List.map_nil]
    rw [show acHeavy.callsign = "AAL1" from rfl, show acLight.callsign = "BAW2" from rfl]
    decide)

theorem Position.distance_to_nonneg (p q : Position) : 0 ≤ p.distance_to q := by
  unfold Position.distance_to
  have h1 : (0:ℝ) ≤ earthRadiusNm := by norm_num [earthRadiusNm]
  have h2 : 0 ≤ Real.arcsin (Real.sqrt (Real.sin ((radians q.lat - radians p.lat) / 2) ^ 2 +
      Real.cos (radians p.lat) * Real.cos (radians q.lat) *
        Real.sin ((radians q.lon - radians p.lon) / 2) ^ 2)) :=
    Real.arcsin_nonneg.mpr (Real.sqrt_nonneg _)
  simp only
  nlinarith

theorem Position.distance_to_pos (p q : Position)
    (h1 : |p.lat| < 90) (h2 : |q.lat| < 90)
    (h3 : -180 < p.lon) (h4 : p.lon ≤ 180) (h5 : -180 < q.lon) (h6 : q.lon ≤ 180)
    (hne : ¬ (p.lat = q.lat ∧ p.lon = q.lon)) :
    0 < p.distance_to q := by
  rcases lt_or_eq_of_le (Position.distance_to_nonneg p q) with h | h
  · exact h
  · exact absurd ((Position.distance_to_eq_zero_iff p q h1 h2 h3 h4 h5 h6).mp h.symm) hne

/-- The distance the claim speaks about: great-circle distance from the
aircraft to the runway's threshold position (0 when either is missing). -/
def distanceToThresholdSpec (runway : Runway) (ac : Aircraft) : ℝ :=
  match ac.position, runway.threshold_position with
  | some p, some t => p.distance_to t
  | _, _ => 0

/-- Runway 04L with its threshold at (-5, 0). -/
def rwy04L : Runway :=
  { name := "04L", magnetic_heading := 40, length_feet := 10000,
    threshold_position := some { lat := -5, lon := 0, altitude_ft := 0, timestamp := 0 } }

/-- On final, far from the 04L threshold, but with the small placeholder key
`|1| + |1| = 2`. -/
def acX : Aircraft :=
  { callsign := "CES3", position := some { lat := 1, lon := 1, altitude_ft := 0, timestamp := 0 },
    status := .ON_FINAL, assigned_runway := some "04L" }

/-- On final, exactly at the 04L threshold, but with the larger placeholder
key `|-5| + |0| = 5`. -/
def acY : Aircraft :=
  { callsign := "DLH4", position := some { lat := -5, lon := 0, altitude_ft := 0, timestamp := 0 },
    status := .ON_FINAL, assigned_runway := some "04L" }

/-- C3: the claim's "orders each group by ascending distance to the runway
threshold" is false: `_distance_to_threshold` is the placeholder
`abs(lat) + abs(lon)`, which ignores the runway. The wake check orders the 04L
group as [CES3, DLH4] (placeholder keys 2 < 5) although DLH4 sits exactly on
the 04L threshold while CES3 is strictly farther from it. -/
theorem C3_counterexample :
    approachGroupSorted [acX, acY] "04L" = [acX, acY] ∧
    ¬ List.Pairwise
        (fun a b => distanceToThresholdSpec rwy04L a ≤ distanceToThresholdSpec rwy04L b)
        (approachGroupSorted [acX, acY] "04L") := by
  have hgroup : approachGroupSorted [acX, acY] "04L" = [acX, acY] := by
    rw [approachGroupSorted]
    rw [show (onFinal [acX, acY]).filter (fun ac => approachKey ac = "04L") = [acX, acY]
      from rfl]
    show List.orderedInsert _ acX [acY] = _
    rw [List.orderedInsert]
    rw [if_pos (show distanceToThreshold acX ≤ distanceToThreshold acY by
      show |(1:ℝ)| + |(1:ℝ)| ≤ |(-5:ℝ)| + |(0:ℝ)|
      rw [abs_one, abs_neg, abs_zero]
      norm_num)]
  refine ⟨hgroup, ?_⟩
  rw [hgroup]
  intro hpw
  have hle : distanceToThresholdSpec rwy04L acX ≤ distanceToThresholdSpec rwy04L acY := by
    have := List.pairwise_cons.mp hpw
    exact this.1 acY (List.mem_singleton.mpr rfl)
  have hY : distanceToThresholdSpec rwy04L acY = 0 := by
    show Position.distance_to _ _ = 0
    exact Position.distance_to_self_coords _ _ rfl rfl
  have hX : 0 < distanceToThresholdSpec rwy04L acX := by
    show 0 < Position.distance_to
      { lat := 1, lon := 1, altitude_ft := 0, timestamp := 0 }
      { lat := -5, lon := 0, altitude_ft := 0, timestamp := 0 }
    apply Position.distance_to_pos <;> norm_num
  rw [hY] at hle
  linarith

/-- The wake conflict for one adjacent (leader, follower) pair, if its
separation falls short of the required minimum. -/
def mkWakeOpt (rules : ConflictRule) (p : Aircraft × Aircraft) : Option Conflict :=
  if p.1.separation_from p.2 < ((requiredWakeSeparation rules p.1 p.2 : ℝ) : EReal) then
    some { aircraft1 := p.1.callsign, aircraft2 := p.2.callsign,
           conflict_type := "wake_turbulence", severity := "warning",
           distance_nm := p.1.separation_from p.2 }
  else none

/-- The adjacent-pair loop is the filterMap of `mkWakeOpt` over the
consecutive pairs `g.zip g.tail`. -/
theorem wakePairConflicts_eq_zip (rules : ConflictRule) :
    ∀ g : List Aircraft,
      wakePairConflicts rules g = (g.zip g.tail).filterMap (mkWakeOpt rules) := by
  intro g
  induction g with
  | nil => rfl
  | cons a t ih =>
    cases t with
    | nil => rfl
    | cons b t' =>
      rw [wakePairConflicts, ih]
      rw [show (a :: b :: t').zip (a :: b :: t').tail = (a, b) :: ((b :: t').zip t')
        from rfl]
      rw [List.filterMap_cons]
      by_cases hlt : a.separation_from b <
          ((requiredWakeSeparation rules a b : ℝ) : EReal)
      · rw [if_pos hlt]
        rw [show mkWakeOpt rules (a, b) =
          some { aircraft1 := a.callsign, aircraft2 := b.callsign,
                 conflict_type := "wake_turbulence", severity := "warning",
                 distance_nm := a.separation_from b } from by
            rw [mkWakeOpt]; exact if_pos hlt]
        rfl
      · rw [if_neg hlt]
        rw [show mkWakeOpt rules (a, b) = none from by rw [mkWakeOpt]; exact if_neg hlt]
        rfl

/-- Membership in a fold of `insertKey`. -/
theorem mem_foldl_insertKey (f : Aircraft → String) :
    ∀ (acs : List Aircraft) (ks : List String) (k : String),
      (k ∈ acs.foldl (fun ks ac => insertKey ks (f ac)) ks ↔
        k ∈ ks ∨ ∃ ac ∈ acs, f ac = k) := by
  intro acs
  induction acs with
  | nil => simp
  | cons a t ih =>
    intro ks k
    rw [List.foldl_cons, ih]
    have hik : k ∈ insertKey ks (f a) ↔ k ∈ ks ∨ f a = k := by
      unfold insertKey
      by_cases hmem : f a ∈ ks
      · rw [if_pos hmem]
        constructor
        · exact Or.inl
        · rintro (h | h)
          · exact h
          · rwa [← h]
      · rw [if_neg hmem, List.mem_append, List.mem_singleton]
        rw [eq_comm]
    rw [hik]
    constructor
    · rintro ((h | h) | ⟨ac, hac, hk⟩)
      · exact Or.inl h
      · exact Or.inr ⟨a, List.mem_cons_self _ _, h⟩
      · exact Or.inr ⟨ac, List.mem_cons_of_mem _ hac, hk⟩
    · rintro (h | ⟨ac, hac, hk⟩)
      · exact Or.inl (Or.inl h)
      · rcases List.mem_cons.mp hac with rfl | hmem
        · exact Or.inl (Or.inr hk)
        · exact Or.inr ⟨ac, hmem, hk⟩

/-- The group keys are exactly the assigned-runway keys of the on-final
aircraft. -/
theorem mem_approachRunways (l : List Aircraft) (k : String) :
    k ∈ approachRunways l ↔ ∃ ac ∈ onFinal l, approachKey ac = k := by
  rw [approachRunways, mem_foldl_insertKey]
  simp

/-- C3 (amended): the wake check groups exactly the ON_FINAL aircraft by
assigned-runway key, orders each group ascending by the *placeholder*
`abs(lat) + abs(lon)` metric of `_distance_to_threshold` (stably; the metric
ignores the actual runway threshold), and emits one wake_turbulence `warning`
per adjacent (leader, follower) pair whose separation is below the
weight-class minimum; a HEAVY leader and LIGHT follower on final to the same
runway with separation below `wake_separation_heavy_light` (6.0 nm) yield
exactly one such warning naming the follower. -/
theorem C3_wake_turbulence_amended (rules : ConflictRule) (l : List Aircraft) :
    (∀ k, k ∈ approachRunways l ↔ ∃ ac ∈ onFinal l, approachKey ac = k) ∧
    (∀ k, (approachGroupSorted l k).Perm
        ((onFinal l).filter (fun ac => approachKey ac = k)) ∧
      List.Sorted (fun a b => distanceToThreshold a ≤ distanceToThreshold b)
        (approachGroupSorted l k)) ∧
    (checkWakeTurbulence rules l = (approachRunways l).flatMap (fun k =>
      ((approachGroupSorted l k).zip (approachGroupSorted l k).tail).filterMap
        (mkWakeOpt rules))) ∧
    (∀ H L r, H.status = AircraftStatus.ON_FINAL → L.status = AircraftStatus.ON_FINAL →
      H.assigned_runway = some r → L.assigned_runway = some r →
      H.weight_class = "HEAVY" → L.weight_class = "LIGHT" →
      distanceToThreshold H ≤ distanceToThreshold L →
      H.separation_from L < ((rules.wake_separation_heavy_light : ℝ) : EReal) →
      checkWakeTurbulence rules [H, L] =
        [{ aircraft1 := H.callsign, aircraft2 := L.callsign,
           conflict_type := "wake_turbulence", severity := "warning",
           distance_nm := H.separation_from L }]) := by
  refine ⟨mem_approachRunways l, ?_, ?_, ?_⟩
  · intro k
    constructor
    · exact List.perm_insertionSort _ _
    · haveI : IsTotal Aircraft (fun a b => distanceToThreshold a ≤ distanceToThreshold b) :=
        ⟨fun a b => le_total _ _⟩
      haveI : IsTrans Aircraft (fun a b => distanceToThreshold a ≤ distanceToThreshold b) :=
        ⟨fun _ _ _ h1 h2 => le_trans h1 h2⟩
      exact List.sorted_insertionSort _ _
  · rw [checkWakeTurbulence]
    congr 1
    funext k
    exact wakePairConflicts_eq_zip rules _
  · intro H L r h1 h2 h3 h4 h5 h6 h7 h8
    have honf : onFinal [H, L] = [H, L] := by
      unfold onFinal
      rw [List.filter_cons_of_pos (by rw [h1]; rfl),
        List.filter_cons_of_pos (by rw [h2]; rfl)]
      rfl
    have hkH : approachKey H = r := by rw [approachKey, h3]; rfl
    have hkL : approachKey L = r := by rw [approachKey, h4]; rfl
    have hkeys : approachRunways [H, L] = [r] := by
      rw [approachRunways, honf]
      rw [List.foldl_cons, List.foldl_cons, List.foldl_nil, hkH, hkL]
      unfold insertKey
      rw [if_neg (List.not_mem_nil r), List.nil_append]
      rw [if_pos (List.mem_singleton.mpr rfl)]
    have hgroup : approachGroupSorted [H, L] r = [H, L] := by
      rw [approachGroupSorted, honf]
      rw [List.filter_cons_of_pos (by rw [hkH]; exact decide_eq_true rfl),
        List.filter_cons_of_pos (by rw [hkL]; exact decide_eq_true rfl),
        List.filter_nil]
      show List.orderedInsert _ H [L] = _
      rw [List.orderedInsert, if_pos h7]
    rw [checkWakeTurbulence, hkeys]
    rw [List.flatMap_cons, List.flatMap_nil, List.append_nil, hgroup]
    rw [wakePairConflicts]
    rw [show requiredWakeSeparation rules H L = rules.wake_separation_heavy_light from by
      rw [requiredWakeSeparation, if_pos h5, if_neg (by rw [h6]; decide),
        if_neg (by rw [h6]; decide)]]
    rw [if_pos h8]
    rw [show wakePairConflicts rules [L] = [] from rfl, List.append_nil]

/-- Witness for C3's amended scenario: the coincident HEAVY/LIGHT pair on
final to 04L. -/
theorem C3_witness :
    checkWakeTurbulence defaultRules [acHeavy, acLight] =
      [{ aircraft1 := "AAL1", aircraft2 := "BAW2",
         conflict_type := "wake_turbulence", severity := "warning",
         distance_nm := Aircraft.separation_from acHeavy acLight }] :=
  (C3_wake_turbulence_amended defaultRules [acHeavy, acLight]).2.2.2 acHeavy acLight "04L"
    rfl rfl rfl rfl rfl rfl (le_refl _)
    (by rw [acHeavy_sep_acLight]
        exact ereal_coe_lt_coe_of_lt (by norm_num [defaultRules]))

/-- `domain/airport_topology.py` `AirportTopology`. Only the runway registry
(an insertion-ordered dict) is relevant to the claims; the taxiway node/graph
structure, path finding and validation are not modelled. -/
structure AirportTopology where
  airport_code : String
  runways : List (String × Runway) := []

/-- The headwind magnitude computed inside `get_active_runways`:
`abs(wind_speed * cos(radians(abs(heading - wind_direction))))`. -/
def headwindKey (wind_direction wind_speed : ℝ) (r : Runway) : ℝ :=
  |wind_speed * Real.cos (radians |r.magnetic_heading - wind_direction|)|

/-- `get_active_runways`: keep the headwind-qualifying runways (none at all
when `prefer_into_wind` is false, since the loop condition is
`prefer_into_wind and ...`), sorted by headwind component descending
(Python's stable sort). -/
def getActiveRunways (t : AirportTopology) (wind_direction wind_speed : ℝ)
    (prefer_into_wind : Bool := true) : List Runway :=
  let active := (t.runways.map Prod.snd).filterMap (fun runway =>
    if prefer_into_wind then
      if runway.is_headwind wind_direction then
        some (runway, headwindKey wind_direction wind_speed runway)
      else none
    else none)
  (List.insertionSort (fun a b : Runway × ℝ => b.2 ≤ a.2) active).map Prod.fst

theorem radians_neg (x : ℝ) : radians (-x) = -(radians x) := by
  unfold radians; ring

theorem cos_radians_abs (x : ℝ) : Real.cos (radians |x|) = Real.cos (radians x) := by
  rcases abs_cases x with ⟨h, -⟩ | ⟨h, -⟩
  · rw [h]
  · rw [h, radians_neg, Real.cos_neg]

/-- Within the headwind sector (shortest angular distance at most 90°), the
cosine of the (in-range) angular difference is non-negative. -/
theorem cos_radians_nonneg_of_headwind (d : ℝ) (h0 : 0 ≤ d) (h1 : d ≤ 360)
    (h2 : d ≤ 90 ∨ 270 ≤ d) : 0 ≤ Real.cos (radians d) := by
  have hpi := Real.pi_pos
  rcases h2 with h | h
  · apply Real.cos_nonneg_of_mem_Icc
    constructor
    · show -(Real.pi/2) ≤ d * (Real.pi/180)
      nlinarith
    · show d * (Real.pi/180) ≤ Real.pi/2
      nlinarith
  · rw [show radians d = 2*Real.pi - (2*Real.pi - radians d) by ring,
      Real.cos_two_pi_sub]
    apply Real.cos_nonneg_of_mem_Icc
    constructor
    · show -(Real.pi/2) ≤ 2*Real.pi - d * (Real.pi/180)
      nlinarith
    · show 2*Real.pi - d * (Real.pi/180) ≤ Real.pi/2
      nlinarith

/-- On a qualifying (headwind) runway with in-range heading and wind
direction and non-negative wind speed, the code's sort key equals the genuine
headwind component `-(tailwind_component)`. -/
theorem headwindKey_eq_neg_tailwind (wd ws : ℝ) (r : Runway) (hws : 0 ≤ ws)
    (h0 : 0 ≤ r.magnetic_heading) (h1 : r.magnetic_heading ≤ 360)
    (hwd0 : 0 ≤ wd) (hwd1 : wd ≤ 360) (hhw : r.is_headwind wd) :
    headwindKey wd ws r = -(r.tailwind_component wd ws) := by
  unfold headwindKey Runway.tailwind_component
  rw [cos_radians_abs]
  have hcos : Real.cos (radians (r.magnetic_heading - wd)) =
      Real.cos (radians (wd - r.magnetic_heading)) := by
    rw [show r.magnetic_heading - wd = -(wd - r.magnetic_heading) by ring,
      radians_neg, Real.cos_neg]
  rw [hcos]
  have h2 : 0 ≤ Real.cos (radians (wd - r.magnetic_heading)) := by
    rw [← cos_radians_abs]
    apply cos_radians_nonneg_of_headwind
    · exact abs_nonneg _
    · rw [abs_le]
      constructor <;> linarith
    · unfold Runway.is_headwind at hhw
      rw [show |r.magnetic_heading - wd| = |wd - r.magnetic_heading| from
        abs_sub_comm _ _] at hhw
      rcases min_le_iff.mp hhw with h | h
      · exact Or.inl h
      · exact Or.inr (by linarith)
  rw [abs_of_nonneg (mul_nonneg hws h2)]
  ring

/-- The pairs gathered by the `get_active_runways` loop (with
`prefer_into_wind` set): exactly the qualifying runways with their keys. -/
theorem mem_activePairs (t : AirportTopology) (wd ws : ℝ) (p : Runway × ℝ) :
    p ∈ (t.runways.map Prod.snd).filterMap (fun runway =>
        if (true : Bool) then
          if runway.is_headwind wd then
            some (runway, headwindKey wd ws runway)
          else none
        else none) ↔
      p.1 ∈ t.runways.map Prod.snd ∧ p.1.is_headwind wd ∧
        p.2 = headwindKey wd ws p.1 := by
  rw [List.mem_filterMap]
  constructor
  · rintro ⟨r, hr, hsome⟩
    rw [if_pos rfl] at hsome
    by_cases hhw : r.is_headwind wd
    · rw [if_pos hhw] at hsome
      cases Option.some.inj hsome
      exact ⟨hr, hhw, rfl⟩
    · rw [if_neg hhw] at hsome
      cases hsome
  · rintro ⟨hr, hhw, hkey⟩
    refine ⟨p.1, hr, ?_⟩
    rw [if_pos rfl, if_pos hhw, ← hkey]

/-- C8: with `prefer_into_wind` set, `get_active_runways` returns exactly the
headwind-qualifying runways (shortest angular distance from the wind at most
90°), ranked by headwind component (`-(tailwind_component)`) descending —
under in-range headings/wind direction and non-negative wind speed; with the
flag cleared the `prefer_into_wind and ...` loop condition admits nothing. -/
theorem C8_get_active_runways (t : AirportTopology) (wd ws : ℝ)
    (hws : 0 ≤ ws) (hwd0 : 0 ≤ wd) (hwd1 : wd ≤ 360)
    (hrw : ∀ r ∈ t.runways.map Prod.snd,
      0 ≤ r.magnetic_heading ∧ r.magnetic_heading ≤ 360) :
    List.Pairwise
        (fun a b => -(Runway.tailwind_component b wd ws) ≤
          -(Runway.tailwind_component a wd ws))
        (getActiveRunways t wd ws true) ∧
    (∀ r, r ∈ getActiveRunways t wd ws true ↔
      r ∈ t.runways.map Prod.snd ∧ r.is_headwind wd) ∧
    getActiveRunways t wd ws false = [] := by
  have hperm := List.perm_insertionSort
    (fun a b : Runway × ℝ => b.2 ≤ a.2)
    ((t.runways.map Prod.snd).filterMap (fun runway =>
      if (true : Bool) then
        if runway.is_headwind wd then
          some (runway, headwindKey wd ws runway)
        else none
      else none))
  have hmem_sorted : ∀ p, p ∈ List.insertionSort (fun a b : Runway × ℝ => b.2 ≤ a.2)
      ((t.runways.map Prod.snd).filterMap (fun runway =>
        if (true : Bool) then
          if runway.is_headwind wd then
            some (runway, headwindKey wd ws runway)
          else none
        else none)) ↔
      p.1 ∈ t.runways.map Prod.snd ∧ p.1.is_headwind wd ∧
        p.2 = headwindKey wd ws p.1 := by
    intro p
    rw [hperm.mem_iff, mem_activePairs]
  refine ⟨?_, ?_, ?_⟩
  case refine_3 =>
    show List.map Prod.fst (List.insertionSort _ (List.filterMap _ _)) = []
    rw [show ((t.runways.map Prod.snd).filterMap (fun runway =>
        if (false : Bool) then
          if runway.is_headwind wd then
            some (runway, headwindKey wd ws runway)
          else none
        else none)) = ([] : List (Runway × ℝ)) from by
      rw [List.filterMap_eq_nil_iff]
      intro a _
      rfl]
    rfl
  · show List.Pairwise _ (List.map Prod.fst _)
    rw [List.pairwise_map]
    have hsorted : List.Sorted (fun a b : Runway × ℝ => b.2 ≤ a.2)
        (List.insertionSort (fun a b : Runway × ℝ => b.2 ≤ a.2)
          ((t.runways.map Prod.snd).filterMap (fun runway =>
            if (true : Bool) then
              if runway.is_headwind wd then
                some (runway, headwindKey wd ws runway)
              else none
            else none))) := by
      haveI : IsTotal (Runway × ℝ) (fun a b => b.2 ≤ a.2) :=
        ⟨fun a b => le_total b.2 a.2⟩
      haveI : IsTrans (Runway × ℝ) (fun a b => b.2 ≤ a.2) :=
        ⟨fun _ _ _ h1 h2 => le_trans h2 h1⟩
      exact List.sorted_insertionSort _ _
    refine hsorted.imp_of_mem ?_
    intro a b ha hb hle
    obtain ⟨hra, hhwa, hka⟩ := (hmem_sorted a).mp ha
    obtain ⟨hrb, hhwb, hkb⟩ := (hmem_sorted b).mp hb
    obtain ⟨ha0, ha1⟩ := hrw a.1 hra
    obtain ⟨hb0, hb1⟩ := hrw b.1 hrb
    rw [hka, headwindKey_eq_neg_tailwind wd ws a.1 hws ha0 ha1 hwd0 hwd1 hhwa] at hle
    rw [hkb, headwindKey_eq_neg_tailwind wd ws b.1 hws hb0 hb1 hwd0 hwd1 hhwb] at hle
    exact hle
  · intro r
    show r ∈ List.map Prod.fst _ ↔ _
    rw [List.mem_map]
    constructor
    · rintro ⟨p, hp, rfl⟩
      obtain ⟨h1, h2, -⟩ := (hmem_sorted p).mp hp
      exact ⟨h1, h2⟩
    · rintro ⟨h1, h2⟩
      exact ⟨(r, headwindKey wd ws r), (hmem_sorted _).mpr ⟨h1, h2, rfl⟩, rfl⟩

/-- A north-facing runway. -/
def rwyN : Runway := { name := "04L", magnetic_heading := 0, length_feet := 10000 }

/-- An east-facing runway. -/
def rwyE : Runway := { name := "09", magnetic_heading := 90, length_feet := 9000 }

/-- A two-runway topology. -/
def topoW : AirportTopology :=
  { airport_code := "KJFK", runways := [("04L", rwyN), ("09", rwyE)] }

/-- Witness for C8 at a concrete two-runway topology with a northerly wind. -/
theorem C8_witness :
    List.Pairwise
        (fun a b => -(Runway.tailwind_component b 0 10) ≤
          -(Runway.tailwind_component a 0 10))
        (getActiveRunways topoW 0 10 true) ∧
    (∀ r, r ∈ getActiveRunways topoW 0 10 true ↔
      r ∈ topoW.runways.map Prod.snd ∧ r.is_headwind 0) ∧
    getActiveRunways topoW 0 10 false = [] :=
  C8_get_active_runways topoW 0 10 (by norm_num) (by norm_num) (by norm_num)
    (by
      intro r hr
      rw [show topoW.runways.map Prod.snd = [rwyN, rwyE] from rfl] at hr
      rcases List.mem_cons.mp hr with rfl | hr
      · constructor <;> norm_num [rwyN]
      · rcases List.mem_cons.mp hr with rfl | hr
        · constructor <;> norm_num [rwyE]
        · cases hr)

/-- Python dict lookup (first — and, keys being unique, only — match). -/
def dictGet {β : Type} (k : String) : List (String × β) → Option β
  | [] => none
  | (k', v) :: t => if k = k' then some v else dictGet k t

/-- One aircraft entry of a perception snapshot
(`core/world_model.py` `update_from_perception`'s `ac_data` dict; optional
keys are `Option`s, read with the source's `.get` defaults). A `status` value
is a valid `AircraftStatus` name (the source's `AircraftStatus[...]` lookup). -/
structure AircraftData where
  callsign : String
  position : ℝ × ℝ
  altitude : Option ℝ := none
  heading : Option ℝ := none
  speed : Option ℝ := none
  status : Option AircraftStatus := none
  aircraft_type : Option String := none
  weight_class : Option String := none

/-- The snapshot's `wind` dict. -/
structure Wind where
  direction : Option ℝ := none
  speed : Option ℝ := none

/-- A perception snapshot (`perception_data`). -/
structure PerceptionData where
  aircraft : List AircraftData := []
  wind : Option Wind := none
  active_runways : Option (List String) := none

/-- `ATCWorldModel` state. The conflict detector's configuration and its
`active_conflicts` dict are inlined (the model owns its detector instance). -/
structure WorldModelState where
  topology : Option AirportTopology := none
  rules : ConflictRule := {}
  active_conflicts : List (String × Conflict) := []
  aircraft : List (String × Aircraft) := []
  wind_direction : ℝ := 0
  wind_speed : ℝ := 0
  active_runways : List String := []
  last_update_time : ℝ := 0
  update_count : ℕ := 0

/-- The runway list handed to the detector:
`list(self.topology.runways.values()) if self.topology else []`. -/
def topologyRunways : Option AirportTopology → List Runway
  | some t => t.runways.map Prod.snd
  | none => []

/-- The fresh track `_add_aircraft` constructs: current position set from the
snapshot, empty history. `datetime.now()` timestamps are modelled by the
cycle's `current_time`. -/
def newTrack (d : AircraftData) (current_time : ℝ) : Aircraft :=
  { callsign := d.callsign, aircraft_type := d.aircraft_type.getD "UNKNOWN",
    position := some (Position.mk d.position.1 d.position.2 (d.altitude.getD 0) current_time),
    status := d.status.getD .IN_FLIGHT,
    heading := d.heading.getD 0, speed_knots := d.speed.getD 0,
    weight_class := d.weight_class.getD "MEDIUM",
    first_seen := current_time, last_seen := current_time }

/-- `_add_aircraft`: construct a fresh track (empty history) and register it. -/
def addAircraft (s : WorldModelState) (d : AircraftData) (current_time : ℝ) :
    WorldModelState :=
  { s with aircraft := dictInsert s.aircraft d.callsign (newTrack d current_time) }

/-- `_update_aircraft`: refresh an existing track (`update_position` plus
attribute updates; the status assignment is a no-op when the reported status
equals the current one, so the net effect is `getD`). The source would raise
on a missing current position when defaulting the altitude; no caller reaches
that state and it is modelled as default 0. -/
def updateAircraftData (s : WorldModelState) (d : AircraftData)
    (dt current_time : ℝ) : WorldModelState :=
  match dictGet d.callsign s.aircraft with
  | none => s
  | some aircraft =>
    let new_position : Position :=
      { lat := d.position.1, lon := d.position.2,
        altitude_ft := d.altitude.getD ((aircraft.position.map Position.altitude_ft).getD 0),
        timestamp := current_time }
    let ac1 := aircraft.update_position new_position dt
    let ac2 := { ac1 with
      heading := d.heading.getD ac1.heading,
      speed_knots := d.speed.getD ac1.speed_knots,
      status := d.status.getD ac1.status }
    { s with aircraft :=
        s.aircraft.map (fun p => if p.1 = d.callsign then (p.1, ac2) else p) }

/-- `_detect_conflicts`: skipped entirely when no aircraft is tracked; else
run the detector (whose `_update_active_conflicts` replaces the active dict
with this cycle's conflicts; the sorted return list is discarded here). -/
def detectConflictsStep (s : WorldModelState) : WorldModelState :=
  if s.aircraft.isEmpty then s
  else
    let aircraft_list := s.aircraft.map Prod.snd
    let runways := topologyRunways s.topology
    let conflicts := checkHorizontalSeparation s.rules aircraft_list ++
      checkRunwayIncursions aircraft_list runways ++
      checkWakeTurbulence s.rules aircraft_list ++
      predictConflicts s.rules aircraft_list
    { s with active_conflicts := updateActiveConflicts conflicts }

/-- The track-reconciliation phase of `update_from_perception`: update known
callsigns, register unknown ones, remove every previously-registered callsign
absent from the snapshot. -/
def reconcileAircraft (s : WorldModelState) (pd : PerceptionData)
    (dt current_time : ℝ) : WorldModelState :=
  let s3 := pd.aircraft.foldl (fun st d =>
    if (dictGet d.callsign st.aircraft).isSome then
      updateAircraftData st d dt current_time
    else
      addAircraft st d current_time) s
  let detected := pd.aircraft.map AircraftData.callsign
  { s3 with aircraft := s3.aircraft.filter (fun p => p.1 ∈ detected) }

/-- `update_from_perception`: wind and active-runway refresh, track
reconciliation (update known, add unknown, remove undetected), conflict
detection, counter/timestamp advance. -/
def updateFromPerception (s : WorldModelState) (pd : PerceptionData)
    (current_time : ℝ) : WorldModelState :=
  let dt := current_time - s.last_update_time
  let s1 := match pd.wind with
    | some w =>
      { s with wind_direction := w.direction.getD 0, wind_speed := w.speed.getD 0 }
    | none => s
  let s2 := match pd.active_runways with
    | some rs => { s1 with active_runways := rs }
    | none => s1
  let s5 := detectConflictsStep (reconcileAircraft s2 pd dt current_time)
  { s5 with last_update_time := current_time, update_count := s5.update_count + 1 }

/-- The runway check of `assign_runway`: a topology is configured and the
runway name is not among its runways (`self.topology and runway_name not in
self.topology.runways`). -/
def runwayUnknown (s : WorldModelState) (runway_name : String) : Prop :=
  match s.topology with
  | some t => dictGet runway_name t.runways = none
  | none => False

instance (s : WorldModelState) (r : String) : Decidable (runwayUnknown s r) := by
  unfold runwayUnknown
  rcases s.topology with _ | t
  · exact isFalse fun h => h
  · exact Option.decidable_eq_none

/-- `assign_runway`: boolean failure for an unknown callsign, or for an
unknown runway when a topology is configured; otherwise set
`assigned_runway` and succeed. -/
def assignRunway (s : WorldModelState) (callsign runway_name : String) :
    Bool × WorldModelState :=
  if (dictGet callsign s.aircraft).isNone then (false, s)
  else if runwayUnknown s runway_name then (false, s)
  else
    (true, { s with aircraft := s.aircraft.map (fun p =>
      if p.1 = callsign then
        (p.1, { p.2 with assigned_runway := some runway_name })
      else p) })

theorem dictGet_assign_self (r c : String) :
    ∀ m : List (String × Aircraft),
      dictGet c (m.map (fun p =>
        if p.1 = c then (p.1, { p.2 with assigned_runway := some r }) else p)) =
      (dictGet c m).map (fun ac => { ac with assigned_runway := some r }) := by
  intro m
  induction m with
  | nil => rfl
  | cons p t ih =>
    obtain ⟨k, v⟩ := p
    rw [List.map_cons]
    by_cases hk : k = c
    · subst hk
      rw [if_pos rfl]
      rw [dictGet, dictGet, if_pos rfl, if_pos rfl]
      rfl
    · rw [if_neg hk]
      rw [dictGet, dictGet, if_neg (fun h => hk h.symm), if_neg (fun h => hk h.symm)]
      exact ih

theorem dictGet_assign_ne (r c c' : String) (hne : c' ≠ c) :
    ∀ m : List (String × Aircraft),
      dictGet c' (m.map (fun p =>
        if p.1 = c then (p.1, { p.2 with assigned_runway := some r }) else p)) =
      dictGet c' m := by
  intro m
  induction m with
  | nil => rfl
  | cons p t ih =>
    obtain ⟨k, v⟩ := p
    rw [List.map_cons]
    by_cases hk : k = c
    · subst hk
      rw [if_pos rfl, dictGet, dictGet, if_neg hne, if_neg hne]
      exact ih
    · rw [if_neg hk]
      rw [dictGet, dictGet]
      by_cases hc' : c' = k
      · rw [if_pos hc', if_pos hc']
      · rw [if_neg hc', if_neg hc']
        exact ih

/-- A world model with no topology and one tracked aircraft. -/
def sNoTopo : WorldModelState :=
  { aircraft := [("AAL1", { callsign := "AAL1" })] }

/-- C9: the claim fails when no topology is configured: the source's
`if self.topology and runway_name not in ...` skips the runway check entirely,
so assigning the unknown runway "ZZZ" succeeds (returns true) and mutates the
aircraft, although "ZZZ" is not in any topology. -/
theorem C9_counterexample :
    sNoTopo.topology = none ∧
    (assignRunway sNoTopo "AAL1" "ZZZ").1 = true ∧
    (dictGet "AAL1" (assignRunway sNoTopo "AAL1" "ZZZ").2.aircraft).map
        Aircraft.assigned_runway = some (some "ZZZ") ∧
    (dictGet "AAL1" sNoTopo.aircraft).map Aircraft.assigned_runway = some none :=
  ⟨rfl, rfl, rfl, rfl⟩

/-- C9 (amended): `assign_runway` returns false and leaves the state
unchanged when the callsign is unknown, or when a topology is configured and
the runway is not among its runways; when the callsign is known and the
runway check passes — i.e. the runway is known, or *no topology is configured
at all* (in which case any runway name is accepted) — it sets that aircraft's
`assigned_runway`, touches nothing else, and returns true. -/
theorem C9_assign_runway (s : WorldModelState) (c r : String) :
    (dictGet c s.aircraft = none → assignRunway s c r = (false, s)) ∧
    (∀ t, s.topology = some t → dictGet r t.runways = none →
      assignRunway s c r = (false, s)) ∧
    (∀ ac, dictGet c s.aircraft = some ac → ¬ runwayUnknown s r →
      (assignRunway s c r).1 = true ∧
      dictGet c (assignRunway s c r).2.aircraft =
        some { ac with assigned_runway := some r } ∧
      (∀ c', c' ≠ c →
        dictGet c' (assignRunway s c r).2.aircraft = dictGet c' s.aircraft) ∧
      (assignRunway s c r).2.topology = s.topology ∧
      (assignRunway s c r).2.active_conflicts = s.active_conflicts) := by
  refine ⟨?_, ?_, ?_⟩
  · intro h
    rw [assignRunway, if_pos (by rw [h]; rfl)]
  · intro t ht hr
    rw [assignRunway]
    by_cases hc : (dictGet c s.aircraft).isNone = true
    · rw [if_pos hc]
    · rw [if_neg hc, if_pos (show runwayUnknown s r by
        unfold runwayUnknown
        rw [ht]
        exact hr)]
  · intro ac hac hnu
    rw [assignRunway, if_neg (by rw [hac]; simp), if_neg hnu]
    refine ⟨rfl, ?_, ?_, rfl, rfl⟩
    · show dictGet c (s.aircraft.map _) = _
      rw [dictGet_assign_self, hac]
      rfl
    · intro c' hne
      show dictGet c' (s.aircraft.map _) = _
      rw [dictGet_assign_ne r c c' hne]

theorem mem_dictInsert {β : Type} (m : List (String × β)) (k : String) (v : β)
    (p : String × β) (hp : p ∈ dictInsert m k v) : p ∈ m ∨ p = (k, v) := by
  unfold dictInsert at hp
  by_cases hc : (m.map Prod.fst).contains k
  · rw [if_pos hc] at hp
    rw [List.mem_map] at hp
    obtain ⟨q, hq, hpq⟩ := hp
    by_cases hk : q.1 = k
    · rw [if_pos hk] at hpq
      exact Or.inr hpq.symm
    · rw [if_neg hk] at hpq
      exact Or.inl (hpq ▸ hq)
  · rw [if_neg hc] at hp
    rcases List.mem_append.mp hp with h | h
    · exact Or.inl h
    · exact Or.inr (List.mem_singleton.mp h)

theorem keys_dictInsert_self {β : Type} (m : List (String × β)) (k : String) (v : β) :
    k ∈ (dictInsert m k v).map Prod.fst := by
  unfold dictInsert
  by_cases hc : (m.map Prod.fst).contains k
  · rw [if_pos hc]
    have hk : k ∈ m.map Prod.fst := by simpa using hc
    rw [List.mem_map] at hk
    obtain ⟨q, hq, hqk⟩ := hk
    rw [List.mem_map]
    refine ⟨(k, v), ?_, rfl⟩
    rw [List.mem_map]
    exact ⟨q, hq, by rw [if_pos hqk]⟩
  · rw [if_neg hc, List.map_append]
    exact List.mem_append_right _ (List.mem_singleton.mpr rfl)

theorem keys_dictInsert_of_mem {β : Type} (m : List (String × β)) (k : String)
    (v : β) (k' : String) (h : k' ∈ m.map Prod.fst) :
    k' ∈ (dictInsert m k v).map Prod.fst := by
  unfold dictInsert
  by_cases hc : (m.map Prod.fst).contains k
  · rw [if_pos hc]
    rw [List.mem_map] at h
    obtain ⟨q, hq, hqk⟩ := h
    rw [List.mem_map]
    by_cases hk : q.1 = k
    · refine ⟨(k, v), ?_, by rw [← hqk, hk]⟩
      rw [List.mem_map]
      exact ⟨q, hq, by rw [if_pos hk]⟩
    · refine ⟨q, ?_, hqk⟩
      rw [List.mem_map]
      exact ⟨q, hq, by rw [if_neg hk]⟩
  · rw [if_neg hc, List.map_append]
    exact List.mem_append_left _ h

/-- Every stored active conflict is one of this cycle's conflicts, keyed by
its canonical id. -/
theorem mem_updateActiveConflicts (cs : List Conflict) :
    ∀ p ∈ updateActiveConflicts cs, p.2 ∈ cs ∧ p.1 = conflictId p.2 := by
  suffices h : ∀ (l : List Conflict) (acc : List (String × Conflict)),
      (∀ p ∈ acc, p.2 ∈ cs ∧ p.1 = conflictId p.2) →
      (∀ c ∈ l, c ∈ cs) →
      ∀ p ∈ l.foldl (fun m c => dictInsert m (conflictId c) c) acc,
        p.2 ∈ cs ∧ p.1 = conflictId p.2 by
    intro p hp
    exact h cs [] (by intro q hq; cases hq) (fun c hc => hc) p hp
  intro l
  induction l with
  | nil =>
    intro acc hacc _ p hp
    exact hacc p hp
  | cons c t ih =>
    intro acc hacc hsub p hp
    rw [List.foldl_cons] at hp
    refine ih (dictInsert acc (conflictId c) c) ?_
      (fun c' hc' => hsub c' (List.mem_cons_of_mem _ hc')) p hp
    intro q hq
    rcases mem_dictInsert acc (conflictId c) c q hq with h | h
    · exact hacc q h
    · rw [h]
      exact ⟨hsub c (List.mem_cons_self _ _), rfl⟩

/-- Every one of this cycle's conflicts is represented in the active dict
under its canonical id. -/
theorem conflictId_mem_updateActiveConflicts (cs : List Conflict) :
    ∀ c ∈ cs, conflictId c ∈ (updateActiveConflicts cs).map Prod.fst := by
  suffices h : ∀ (l : List Conflict) (acc : List (String × Conflict)) (k : String),
      (k ∈ acc.map Prod.fst ∨ ∃ c ∈ l, conflictId c = k) →
      k ∈ (l.foldl (fun m c => dictInsert m (conflictId c) c) acc).map Prod.fst by
    intro c hc
    exact h cs [] (conflictId c) (Or.inr ⟨c, hc, rfl⟩)
  intro l
  induction l with
  | nil =>
    intro acc k hk
    rcases hk with h | ⟨c, hc, -⟩
    · exact h
    · cases hc
  | cons c t ih =>
    intro acc k hk
    rw [List.foldl_cons]
    apply ih
    rcases hk with h | ⟨c', hc', hk⟩
    · exact Or.inl (keys_dictInsert_of_mem _ _ _ _ h)
    · rcases List.mem_cons.mp hc' with rfl | hmem
      · exact Or.inl (hk ▸ keys_dictInsert_self acc (conflictId c') c')
      · exact Or.inr ⟨c', hmem, hk⟩

/-- The four checks, concatenated — the list `_update_active_conflicts`
receives (the sorted copy returned by `detect_all_conflicts` is a
permutation of it). -/
def cycleConflicts (rules : ConflictRule) (aircraft : List Aircraft)
    (runways : List Runway) : List Conflict :=
  checkHorizontalSeparation rules aircraft ++
  checkRunwayIncursions aircraft runways ++
  checkWakeTurbulence rules aircraft ++
  predictConflicts rules aircraft

/-- With a non-empty registry, `_detect_conflicts` replaces the active set
with the dict of this cycle's conflicts. -/
theorem detectConflictsStep_of_ne_empty (s : WorldModelState)
    (h : ¬ s.aircraft = []) :
    detectConflictsStep s = { s with active_conflicts := updateActiveConflicts (cycleConflicts s.rules (s.aircraft.map Prod.snd) (topologyRunways s.topology)) } := by
  unfold detectConflictsStep
  rw [if_neg (by
    rw [List.isEmpty_iff]
    exact h)]
  rfl

/-- `_detect_conflicts` never changes the track registry. -/
theorem detectConflictsStep_aircraft (s : WorldModelState) :
    (detectConflictsStep s).aircraft = s.aircraft := by
  unfold detectConflictsStep
  by_cases hc : s.aircraft.isEmpty = true
  · rw [if_pos hc]
  · rw [if_neg hc]

theorem mem_detectAllConflicts_iff (rules : ConflictRule)
    (aircraft : List Aircraft) (runways : List Runway) (c : Conflict) :
    c ∈ detectAllConflicts rules aircraft runways ↔
      c ∈ cycleConflicts rules aircraft runways := by
  unfold detectAllConflicts sortBySeverityDesc cycleConflicts
  exact (List.perm_insertionSort _ _).mem_iff

/-- C5 (amended): after every update cycle whose reconciled track registry is
non-empty, the active-conflict set is exactly the conflicts detected in that
cycle, keyed by the canonical id (sorted callsign pair + type): every stored
entry is one of this cycle's conflicts under its own id, and every detected
conflict's id is stored. (When the registry is empty the detector is skipped
and the previous cycle's set persists, so the hypothesis is necessary.) -/
theorem C5_active_conflicts_per_cycle (s : WorldModelState) (pd : PerceptionData)
    (t : ℝ) (h : ¬ (updateFromPerception s pd t).aircraft = []) :
    (∀ p ∈ (updateFromPerception s pd t).active_conflicts,
      p.2 ∈ detectAllConflicts (updateFromPerception s pd t).rules
          ((updateFromPerception s pd t).aircraft.map Prod.snd)
          (topologyRunways (updateFromPerception s pd t).topology) ∧
      p.1 = conflictId p.2) ∧
    (∀ c, c ∈ detectAllConflicts (updateFromPerception s pd t).rules
          ((updateFromPerception s pd t).aircraft.map Prod.snd)
          (topologyRunways (updateFromPerception s pd t).topology) →
      ∃ p ∈ (updateFromPerception s pd t).active_conflicts,
        p.1 = conflictId c) := by
  have hstep : ∀ (R : WorldModelState), ¬ R.aircraft = [] →
      (∀ p ∈ (detectConflictsStep R).active_conflicts,
        p.2 ∈ detectAllConflicts (detectConflictsStep R).rules
            ((detectConflictsStep R).aircraft.map Prod.snd)
            (topologyRunways (detectConflictsStep R).topology) ∧
        p.1 = conflictId p.2) ∧
      (∀ c, c ∈ detectAllConflicts (detectConflictsStep R).rules
            ((detectConflictsStep R).aircraft.map Prod.snd)
            (topologyRunways (detectConflictsStep R).topology) →
        ∃ p ∈ (detectConflictsStep R).active_conflicts, p.1 = conflictId c) := by
    intro R hR
    rw [detectConflictsStep_of_ne_empty R hR]
    constructor
    · intro p hp
      have := mem_updateActiveConflicts _ p hp
      refine ⟨?_, this.2⟩
      rw [mem_detectAllConflicts_iff]
      exact this.1
    · intro c hc
      rw [mem_detectAllConflicts_iff] at hc
      have hkey := conflictId_mem_updateActiveConflicts _ c hc
      rw [List.mem_map] at hkey
      obtain ⟨p, hp, hpk⟩ := hkey
      exact ⟨p, hp, hpk⟩
  refine hstep _ ?_
  intro he
  apply h
  show (detectConflictsStep _).aircraft = []
  rw [detectConflictsStep_aircraft]
  exact he

/-- A generic coincident-pair evaluation of the horizontal check: two
airborne co-located aircraft yield exactly one critical violation. -/
theorem checkHorizontalSeparation_coincident_pair (rules : ConflictRule)
    (A B : Aircraft) (pA pB : Position)
    (hA : A.position = some pA) (hB : B.position = some pB)
    (hlat : pA.lat = pB.lat) (hlon : pA.lon = pB.lon)
    (hgA : ¬ A.status = AircraftStatus.ON_GROUND)
    (hgB : ¬ B.status = AircraftStatus.ON_GROUND)
    (h3 : 0 < rules.horizontal_separation_nm) :
    checkHorizontalSeparation rules [A, B] =
      [{ aircraft1 := A.callsign, aircraft2 := B.callsign,
         conflict_type := "separation_violation", severity := "critical",
         distance_nm := ((0:ℝ) : EReal) }] := by
  have hsep : A.separation_from B = ((0:ℝ) : EReal) := by
    unfold Aircraft.separation_from
    rw [hA, hB]
    show ((pA.distance_to pB : ℝ) : EReal) = _
    rw [Position.distance_to_self_coords pA pB hlat hlon]
  show List.filterMap (sepConflictOfPair rules A) [B] ++
      (List.filterMap (sepConflictOfPair rules B) [] ++ []) = _
  rw [List.filterMap_nil, List.filterMap_cons, List.filterMap_nil]
  rw [sepConflictOfPair]
  rw [if_neg (fun hg => hg.elim hgA hgB)]
  dsimp only
  rw [hsep]
  rw [if_pos (ereal_coe_lt_coe_of_lt h3),
    if_pos (ereal_coe_lt_coe_of_lt (by norm_num : (0:ℝ) < 2))]
  rfl

/-- Snapshot entry for a new plane at the origin. -/
def dataA : AircraftData := { callsign := "AAL1", position := (0, 0) }

/-- Snapshot entry for a second new plane at the origin. -/
def dataB : AircraftData := { callsign := "BAW2", position := (0, 0) }

/-- A snapshot with two co-located new aircraft. -/
def pdTwoPlanes : PerceptionData := { aircraft := [dataA, dataB] }

/-- A snapshot with no aircraft at all. -/
def pdEmptySnapshot : PerceptionData := {}

/-- The tracks created by the first cycle (history empty, position stamped
with the cycle time). -/
def acA100 : Aircraft :=
  { callsign := "AAL1",
    position := some { lat := 0, lon := 0, altitude_ft := 0, timestamp := 100 },
    status := .IN_FLIGHT, first_seen := 100, last_seen := 100 }

def acB100 : Aircraft :=
  { callsign := "BAW2",
    position := some { lat := 0, lon := 0, altitude_ft := 0, timestamp := 100 },
    status := .IN_FLIGHT, first_seen := 100, last_seen := 100 }

theorem cycle1_aircraft :
    (updateFromPerception {} pdTwoPlanes 100).aircraft =
      [("AAL1", acA100), ("BAW2", acB100)] := by
  show (detectConflictsStep _).aircraft = _
  rw [detectConflictsStep_aircraft]
  rfl

theorem cycle1_active :
    (updateFromPerception {} pdTwoPlanes 100).active_conflicts =
      [(conflictId sepCritC, sepCritC)] := by
  have hRair : (reconcileAircraft ({} : WorldModelState) pdTwoPlanes
      (100 - ({} : WorldModelState).last_update_time) 100).aircraft =
      [("AAL1", acA100), ("BAW2", acB100)] := rfl
  show (detectConflictsStep (reconcileAircraft ({} : WorldModelState) pdTwoPlanes
      (100 - ({} : WorldModelState).last_update_time) 100)).active_conflicts = _
  rw [detectConflictsStep_of_ne_empty _ (by rw [hRair]; intro hbad; cases hbad)]
  show updateActiveConflicts (cycleConflicts defaultRules
      ((reconcileAircraft ({} : WorldModelState) pdTwoPlanes
        (100 - ({} : WorldModelState).last_update_time) 100).aircraft.map Prod.snd)
      (topologyRunways none)) = _
  rw [hRair]
  show updateActiveConflicts (cycleConflicts defaultRules [acA100, acB100] []) = _
  rw [cycleConflicts]
  rw [checkHorizontalSeparation_coincident_pair defaultRules acA100 acB100
    { lat := 0, lon := 0, altitude_ft := 0, timestamp := 100 }
    { lat := 0, lon := 0, altitude_ft := 0, timestamp := 100 }
    rfl rfl rfl rfl (by intro h; cases h) (by intro h; cases h)
    (by norm_num [defaultRules])]
  rw [show checkRunwayIncursions [acA100, acB100] [] = [] from rfl]
  rw [show checkWakeTurbulence defaultRules [acA100, acB100] = [] from rfl]
  rw [predictConflicts_of_no_velocity defaultRules [acA100, acB100] (by
    intro ac hac t
    apply predict_position_of_no_velocity
    apply velocity_vector_of_empty_history
    simp only [List.mem_cons, List.not_mem_nil, or_false] at hac
    rcases hac with rfl | rfl <;> rfl)]
  rfl

theorem updateFromPerception_empty_snapshot_aircraft (s : WorldModelState)
    (t : ℝ) : (updateFromPerception s pdEmptySnapshot t).aircraft = [] := by
  show (detectConflictsStep _).aircraft = []
  rw [detectConflictsStep_aircraft]
  show (s.aircraft.filter fun p =>
    p.1 ∈ (pdEmptySnapshot.aircraft.map AircraftData.callsign)) = []
  have haux : ∀ l : List (String × Aircraft),
      (l.filter fun p =>
        p.1 ∈ (pdEmptySnapshot.aircraft.map AircraftData.callsign)) = [] := by
    intro l
    induction l with
    | nil => rfl
    | cons p tl ih =>
      rw [List.filter_cons_of_neg (by simp [pdEmptySnapshot])]
      exact ih
  exact haux s.aircraft

theorem updateFromPerception_empty_snapshot_active (s : WorldModelState)
    (t : ℝ) :
    (updateFromPerception s pdEmptySnapshot t).active_conflicts =
      s.active_conflicts := by
  have hair : (reconcileAircraft s pdEmptySnapshot (t - s.last_update_time) t).aircraft = [] := by
    show (s.aircraft.filter fun p =>
      p.1 ∈ (pdEmptySnapshot.aircraft.map AircraftData.callsign)) = []
    have haux : ∀ l : List (String × Aircraft),
        (l.filter fun p =>
          p.1 ∈ (pdEmptySnapshot.aircraft.map AircraftData.callsign)) = [] := by
      intro l
      induction l with
      | nil => rfl
      | cons p tl ih =>
        rw [List.filter_cons_of_neg (by simp [pdEmptySnapshot])]
        exact ih
    exact haux s.aircraft
  show (detectConflictsStep (reconcileAircraft s pdEmptySnapshot
      (t - s.last_update_time) t)).active_conflicts = _
  rw [show detectConflictsStep (reconcileAircraft s pdEmptySnapshot
      (t - s.last_update_time) t) = reconcileAircraft s pdEmptySnapshot
      (t - s.last_update_time) t from by
    unfold detectConflictsStep
    rw [if_pos (by rw [List.isEmpty_iff]; exact hair)]]
  rfl

/-- C5: the claim fails for a cycle in which all aircraft have exited: the
first cycle registers two co-located aircraft and stores their critical
separation conflict; the second cycle's empty snapshot removes every track,
`_detect_conflicts` early-returns on the empty registry, and the previous
cycle's conflict persists in the active set although nothing was computed
in the current cycle. -/
theorem C5_counterexample :
    (updateFromPerception (updateFromPerception {} pdTwoPlanes 100)
        pdEmptySnapshot 200).aircraft = [] ∧
    (updateFromPerception (updateFromPerception {} pdTwoPlanes 100)
        pdEmptySnapshot 200).active_conflicts =
      [(conflictId sepCritC, sepCritC)] ∧
    [(conflictId sepCritC, sepCritC)] ≠ ([] : List (String × Conflict)) := by
  refine ⟨updateFromPerception_empty_snapshot_aircraft _ 200, ?_, by
    intro h; cases h⟩
  rw [updateFromPerception_empty_snapshot_active _ 200]
  exact cycle1_active

/-- Witness for C5's amended theorem at the first (non-empty) cycle. -/
theorem C5_witness :
    (∀ p ∈ (updateFromPerception {} pdTwoPlanes 100).active_conflicts,
      p.2 ∈ detectAllConflicts (updateFromPerception {} pdTwoPlanes 100).rules
          ((updateFromPerception {} pdTwoPlanes 100).aircraft.map Prod.snd)
          (topologyRunways (updateFromPerception {} pdTwoPlanes 100).topology) ∧
      p.1 = conflictId p.2) ∧
    (∀ c, c ∈ detectAllConflicts (updateFromPerception {} pdTwoPlanes 100).rules
          ((updateFromPerception {} pdTwoPlanes 100).aircraft.map Prod.snd)
          (topologyRunways (updateFromPerception {} pdTwoPlanes 100).topology) →
      ∃ p ∈ (updateFromPerception {} pdTwoPlanes 100).active_conflicts,
        p.1 = conflictId c) :=
  C5_active_conflicts_per_cycle {} pdTwoPlanes 100 (by
    rw [cycle1_aircraft]
    intro h
    cases h)

theorem dictGet_overwrite_self {β : Type} (k : String) (v : β) :
    ∀ m : List (String × β), k ∈ m.map Prod.fst →
      dictGet k (m.map (fun p => if p.1 = k then (k, v) else p)) = some v := by
  intro m
  induction m with
  | nil => intro h; cases h
  | cons p t ih =>
    intro hk
    obtain ⟨k', v'⟩ := p
    rw [List.map_cons]
    by_cases hk' : k' = k
    · rw [if_pos hk', dictGet, if_pos rfl]
    · rw [if_neg hk', dictGet, if_neg (fun h => hk' h.symm)]
      apply ih
      rcases List.mem_cons.mp hk with h | h
      · exact absurd h.symm hk'
      · exact h

theorem dictGet_append_self {β : Type} (k : String) (v : β) :
    ∀ m : List (String × β), k ∉ m.map Prod.fst →
      dictGet k (m ++ [(k, v)]) = some v := by
  intro m
  induction m with
  | nil =>
    intro _
    rw [List.nil_append, dictGet, if_pos rfl]
  | cons p t ih =>
    intro hk
    obtain ⟨k', v'⟩ := p
    rw [List.cons_append, dictGet, if_neg (fun h => hk (by
      rw [List.map_cons, h]
      exact List.mem_cons_self _ _))]
    exact ih (fun h => hk (by
      rw [List.map_cons]
      exact List.mem_cons_of_mem _ h))

theorem dictGet_dictInsert_self {β : Type} (m : List (String × β)) (k : String)
    (v : β) : dictGet k (dictInsert m k v) = some v := by
  unfold dictInsert
  by_cases hc : (m.map Prod.fst).contains k
  · rw [if_pos hc]
    exact dictGet_overwrite_self k v m (by simpa using hc)
  · rw [if_neg hc]
    exact dictGet_append_self k v m (by simpa using hc)

theorem dictGet_dictInsert_ne {β : Type} (k : String) (v : β) (c : String)
    (hne : c ≠ k) :
    ∀ m : List (String × β), dictGet c (dictInsert m k v) = dictGet c m := by
  have hover : ∀ m : List (String × β),
      dictGet c (m.map (fun p => if p.1 = k then (k, v) else p)) = dictGet c m := by
    intro m
    induction m with
    | nil => rfl
    | cons p t ih =>
      obtain ⟨k', v'⟩ := p
      rw [List.map_cons]
      by_cases hk' : k' = k
      · rw [if_pos hk', dictGet, dictGet,
          if_neg (fun h => hne h), if_neg (fun h => hne (h.trans hk'))]
        exact ih
      · rw [if_neg hk', dictGet, dictGet]
        by_cases hck : c = k'
        · rw [if_pos hck, if_pos hck]
        · rw [if_neg hck, if_neg hck]
          exact ih
  have happ : ∀ m : List (String × β),
      dictGet c (m ++ [(k, v)]) = dictGet c m := by
    intro m
    induction m with
    | nil =>
      rw [List.nil_append]
      show (if c = k then some v else dictGet c ([] : List (String × β))) =
        dictGet c ([] : List (String × β))
      rw [if_neg hne]
    | cons p t ih =>
      obtain ⟨k', v'⟩ := p
      rw [List.cons_append, dictGet, dictGet]
      by_cases hck : c = k'
      · rw [if_pos hck, if_pos hck]
      · rw [if_neg hck, if_neg hck]
        exact ih
  intro m
  unfold dictInsert
  by_cases hc : (m.map Prod.fst).contains k
  · rw [if_pos hc]
    exact hover m
  · rw [if_neg hc]
    exact happ m

theorem dictGet_map_setval_ne {β : Type} (k : String) (v : β) (c : String)
    (hne : c ≠ k) :
    ∀ m : List (String × β),
      dictGet c (m.map (fun p => if p.1 = k then (p.1, v) else p)) =
        dictGet c m := by
  intro m
  induction m with
  | nil => rfl
  | cons p t ih =>
    obtain ⟨k', v'⟩ := p
    rw [List.map_cons]
    by_cases hk' : k' = k
    · rw [if_pos hk', dictGet, dictGet]
      by_cases hck : c = k'
      · exact absurd (hck.trans hk') hne
      · rw [if_neg hck, if_neg hck]
        exact ih
    · rw [if_neg hk', dictGet, dictGet]
      by_cases hck : c = k'
      · rw [if_pos hck, if_pos hck]
      · rw [if_neg hck, if_neg hck]
        exact ih

theorem dictGet_filter_detected (detected : List String) (c : String)
    (hc : c ∈ detected) :
    ∀ m : List (String × Aircraft),
      dictGet c (m.filter fun p => p.1 ∈ detected) = dictGet c m := by
  intro m
  induction m with
  | nil => rfl
  | cons p t ih =>
    obtain ⟨k, v⟩ := p
    by_cases hck : c = k
    · rw [List.filter_cons_of_pos (by
        simp only [decide_eq_true_eq]
        rw [← hck]
        exact hc)]
      rw [dictGet, dictGet, if_pos hck, if_pos hck]
    · by_cases hkd : (k ∈ detected)
      · rw [List.filter_cons_of_pos (by simpa using hkd)]
        rw [dictGet, dictGet, if_neg hck, if_neg hck]
        exact ih
      · rw [List.filter_cons_of_neg (by simpa using hkd)]
        rw [dictGet, if_neg hck]
        exact ih

/-- The inner prediction loop only ever reports a partner with a live
(`some`) extrapolated position. -/
theorem predictInner_names (rules : ConflictRule) (t : ℝ) (ac1 : Aircraft)
    (pos1 : Position) :
    ∀ (L : List (Aircraft × Option Position)) (c : Conflict),
      predictInner rules t ac1 pos1 L = some c →
      c.aircraft1 = ac1.callsign ∧
        ∃ ac2 pos2, (ac2, some pos2) ∈ L ∧ c.aircraft2 = ac2.callsign := by
  intro L
  induction L with
  | nil => intro c h; cases h
  | cons p rest ih =>
    obtain ⟨ac2, pos2⟩ := p
    cases pos2 with
    | none =>
      intro c h
      rw [predictInner] at h
      obtain ⟨h1, ac2', pos2', hm, h2⟩ := ih c h
      exact ⟨h1, ac2', pos2', List.mem_cons_of_mem _ hm, h2⟩
    | some pos2 =>
      intro c h
      rw [predictInner] at h
      by_cases hd : pos1.distance_to pos2 < rules.horizontal_separation_nm
      · rw [if_pos hd] at h
        cases Option.some.inj h
        exact ⟨rfl, ac2, pos2, List.mem_cons_self _ _, rfl⟩
      · rw [if_neg hd] at h
        obtain ⟨h1, ac2', pos2', hm, h2⟩ := ih c h
        exact ⟨h1, ac2', pos2', List.mem_cons_of_mem _ hm, h2⟩

/-- Every conflict of a prediction step names two aircraft whose extrapolated
positions are live. -/
theorem predictStep_names (rules : ConflictRule) (t : ℝ) :
    ∀ (L : List (Aircraft × Option Position)) (c : Conflict),
      c ∈ predictStep rules t L →
      (∃ a1 p1, (a1, some p1) ∈ L ∧ c.aircraft1 = a1.callsign) ∧
      (∃ a2 p2, (a2, some p2) ∈ L ∧ c.aircraft2 = a2.callsign) := by
  intro L
  induction L with
  | nil => intro c h; cases h
  | cons p rest ih =>
    obtain ⟨ac1, pos1⟩ := p
    cases pos1 with
    | none =>
      intro c h
      rw [predictStep] at h
      obtain ⟨⟨a1, p1, hm1, h1⟩, a2, p2, hm2, h2⟩ := ih c h
      exact ⟨⟨a1, p1, List.mem_cons_of_mem _ hm1, h1⟩,
        a2, p2, List.mem_cons_of_mem _ hm2, h2⟩
    | some pos1 =>
      intro c h
      rw [predictStep] at h
      rcases List.mem_append.mp h with h | h
      · rcases hPI : predictInner rules t ac1 pos1 rest with _ | c'
        · rw [hPI] at h; cases h
        · rw [hPI] at h
          rcases List.mem_singleton.mp h with rfl
          obtain ⟨h1, ac2, pos2, hm, h2⟩ := predictInner_names rules t ac1 pos1 rest c hPI
          exact ⟨⟨ac1, pos1, List.mem_cons_self _ _, h1⟩,
            ac2, pos2, List.mem_cons_of_mem _ hm, h2⟩
      · obtain ⟨⟨a1, p1, hm1, h1⟩, a2, p2, hm2, h2⟩ := ih c h
        exact ⟨⟨a1, p1, List.mem_cons_of_mem _ hm1, h1⟩,
          a2, p2, List.mem_cons_of_mem _ hm2, h2⟩

/-- If every tracked aircraft named `cs` is un-extrapolatable (no predicted
position at any horizon), then no predicted conflict names `cs`. -/
theorem predictConflicts_not_names (rules : ConflictRule) (l : List Aircraft)
    (cs : String)
    (h : ∀ ac ∈ l, ac.callsign = cs → ∀ t, ac.predict_position t = none) :
    ∀ c ∈ predictConflicts rules l, c.aircraft1 ≠ cs ∧ c.aircraft2 ≠ cs := by
  intro c hc
  unfold predictConflicts at hc
  rw [List.mem_flatMap] at hc
  obtain ⟨step, -, hc⟩ := hc
  obtain ⟨⟨a1, p1, hm1, h1⟩, a2, p2, hm2, h2⟩ := predictStep_names _ _ _ c hc
  rw [List.mem_map] at hm1 hm2
  obtain ⟨b1, hb1, hq1⟩ := hm1
  obtain ⟨b2, hb2, hq2⟩ := hm2
  obtain ⟨hq1a, hq1p⟩ := Prod.ext_iff.mp hq1
  obtain ⟨hq2a, hq2p⟩ := Prod.ext_iff.mp hq2
  dsimp only at hq1a hq1p hq2a hq2p
  constructor
  · intro heq
    have hb1c : b1.callsign = cs := by rw [hq1a, ← h1]; exact heq
    have hnone := h b1 hb1 hb1c
      (rules.prediction_horizon_seconds / (rules.prediction_steps : ℝ) * (step : ℝ))
    rw [hnone] at hq1p
    cases hq1p
  · intro heq
    have hb2c : b2.callsign = cs := by rw [hq2a, ← h2]; exact heq
    have hnone := h b2 hb2 hb2c
      (rules.prediction_horizon_seconds / (rules.prediction_steps : ℝ) * (step : ℝ))
    rw [hnone] at hq2p
    cases hq2p

theorem keys_map_setval {β : Type} (v : β) (k : String) :
    ∀ m : List (String × β),
      (m.map (fun p => if p.1 = k then (p.1, v) else p)).map Prod.fst =
        m.map Prod.fst := by
  intro m
  induction m with
  | nil => rfl
  | cons p t ih =>
    obtain ⟨k', v'⟩ := p
    by_cases hk : k' = k
    · rw [List.map_cons, if_pos hk, List.map_cons, List.map_cons, ih]
    · rw [List.map_cons, if_neg hk, List.map_cons, List.map_cons, ih]

theorem keys_map_overwrite {β : Type} (v : β) (k : String) :
    ∀ m : List (String × β),
      (m.map (fun p => if p.1 = k then (k, v) else p)).map Prod.fst =
        m.map Prod.fst := by
  intro m
  induction m with
  | nil => rfl
  | cons p t ih =>
    obtain ⟨k', v'⟩ := p
    by_cases hk : k' = k
    · rw [List.map_cons, if_pos hk, List.map_cons, List.map_cons, ih, hk]
    · rw [List.map_cons, if_neg hk, List.map_cons, List.map_cons, ih]

theorem keys_dictInsert_nodup {β : Type} (m : List (String × β)) (k : String)
    (v : β) (h : (m.map Prod.fst).Nodup) :
    ((dictInsert m k v).map Prod.fst).Nodup := by
  unfold dictInsert
  by_cases hc : (m.map Prod.fst).contains k
  · rw [if_pos hc, keys_map_overwrite]
    exact h
  · rw [if_neg hc, List.map_append]
    have hk : k ∉ m.map Prod.fst := by simpa using hc
    simp [List.nodup_append, h, hk]

theorem dictGet_callsign :
    ∀ (m : List (String × Aircraft)), (∀ p ∈ m, p.2.callsign = p.1) →
      ∀ (k : String) (ac : Aircraft), dictGet k m = some ac → ac.callsign = k := by
  intro m
  induction m with
  | nil => intro _ k ac h; cases h
  | cons q t ih =>
    intro hm k ac h
    obtain ⟨k', v'⟩ := q
    rw [dictGet] at h
    by_cases hk : k = k'
    · rw [if_pos hk] at h
      cases Option.some.inj h
      rw [hk]
      exact hm (k', ac) (List.mem_cons_self _ _)
    · rw [if_neg hk] at h
      exact ih (fun p hp => hm p (List.mem_cons_of_mem _ hp)) k ac h

theorem value_eq_of_dictGet {β : Type} :
    ∀ (m : List (String × β)), (m.map Prod.fst).Nodup →
      ∀ (k : String) (v : β), dictGet k m = some v →
      ∀ p ∈ m, p.1 = k → p.2 = v := by
  intro m
  induction m with
  | nil => intro _ k v h; cases h
  | cons q t ih =>
    intro hnodup k v h p hp hpk
    obtain ⟨k', v'⟩ := q
    rw [List.map_cons, List.nodup_cons] at hnodup
    rcases List.mem_cons.mp hp with rfl | hpt
    · rw [dictGet, if_pos hpk.symm] at h
      exact Option.some.inj h
    · by_cases hkk : k = k'
      · have hmem : p.1 ∈ t.map Prod.fst := List.mem_map_of_mem Prod.fst hpt
        rw [hpk, hkk] at hmem
        exact absurd hmem hnodup.1
      · rw [dictGet, if_neg hkk] at h
        exact ih hnodup.2 k v h p hpt hpk

theorem addAircraft_inv (st : WorldModelState) (d : AircraftData) (ct : ℝ)
    (hinv : ∀ p ∈ st.aircraft, p.2.callsign = p.1)
    (hkeys : (st.aircraft.map Prod.fst).Nodup) :
    (∀ p ∈ (addAircraft st d ct).aircraft, p.2.callsign = p.1) ∧
    ((addAircraft st d ct).aircraft.map Prod.fst).Nodup := by
  constructor
  · intro p hp
    rcases mem_dictInsert _ _ _ p hp with h | h
    · exact hinv p h
    · rw [h]
      rfl
  · exact keys_dictInsert_nodup _ _ _ hkeys

theorem updateAircraftData_inv (st : WorldModelState) (d : AircraftData)
    (dt ct : ℝ)
    (hinv : ∀ p ∈ st.aircraft, p.2.callsign = p.1)
    (hkeys : (st.aircraft.map Prod.fst).Nodup) :
    (∀ p ∈ (updateAircraftData st d dt ct).aircraft, p.2.callsign = p.1) ∧
    ((updateAircraftData st d dt ct).aircraft.map Prod.fst).Nodup := by
  unfold updateAircraftData
  rcases hg : dictGet d.callsign st.aircraft with _ | ac
  · exact ⟨hinv, hkeys⟩
  · constructor
    · intro p hp
      rw [List.mem_map] at hp
      obtain ⟨q, hq, hpq⟩ := hp
      by_cases hqk : q.1 = d.callsign
      · rw [if_pos hqk] at hpq
        rw [← hpq]
        show Aircraft.callsign _ = q.1
        rw [hqk]
        exact dictGet_callsign st.aircraft hinv d.callsign ac hg
      · rw [if_neg hqk] at hpq
        rw [← hpq]
        exact hinv q hq
    · rw [keys_map_setval]
      exact hkeys

/-- One reconciliation step of the snapshot fold. -/
def reconcileStep (dt ct : ℝ) (st : WorldModelState) (d : AircraftData) :
    WorldModelState :=
  if (dictGet d.callsign st.aircraft).isSome then updateAircraftData st d dt ct
  else addAircraft st d ct

theorem reconcileStep_inv (dt ct : ℝ) (st : WorldModelState) (d : AircraftData)
    (hinv : ∀ p ∈ st.aircraft, p.2.callsign = p.1)
    (hkeys : (st.aircraft.map Prod.fst).Nodup) :
    (∀ p ∈ (reconcileStep dt ct st d).aircraft, p.2.callsign = p.1) ∧
    ((reconcileStep dt ct st d).aircraft.map Prod.fst).Nodup := by
  unfold reconcileStep
  by_cases hc : (dictGet d.callsign st.aircraft).isSome = true
  · rw [if_pos hc]
    exact updateAircraftData_inv st d dt ct hinv hkeys
  · rw [if_neg hc]
    exact addAircraft_inv st d ct hinv hkeys

theorem reconcileStep_dictGet_ne (dt ct : ℝ) (st : WorldModelState)
    (d : AircraftData) (c : String) (hne : c ≠ d.callsign) :
    dictGet c (reconcileStep dt ct st d).aircraft = dictGet c st.aircraft := by
  unfold reconcileStep
  by_cases hc : (dictGet d.callsign st.aircraft).isSome = true
  · rw [if_pos hc]
    unfold updateAircraftData
    rcases hg : dictGet d.callsign st.aircraft with _ | ac
    · rfl
    · exact dictGet_map_setval_ne d.callsign _ c hne st.aircraft
  · rw [if_neg hc]
    exact dictGet_dictInsert_ne d.callsign _ c hne st.aircraft

theorem foldReconcile_inv (dt ct : ℝ) :
    ∀ (ds : List AircraftData) (st : WorldModelState),
      (∀ p ∈ st.aircraft, p.2.callsign = p.1) →
      (st.aircraft.map Prod.fst).Nodup →
      (∀ p ∈ (ds.foldl (reconcileStep dt ct) st).aircraft, p.2.callsign = p.1) ∧
      ((ds.foldl (reconcileStep dt ct) st).aircraft.map Prod.fst).Nodup := by
  intro ds
  induction ds with
  | nil => intro st hinv hkeys; exact ⟨hinv, hkeys⟩
  | cons d rest ih =>
    intro st hinv hkeys
    rw [List.foldl_cons]
    obtain ⟨h1, h2⟩ := reconcileStep_inv dt ct st d hinv hkeys
    exact ih _ h1 h2

theorem foldReconcile_dictGet_not_mem (dt ct : ℝ) (c : String) :
    ∀ (ds : List AircraftData) (st : WorldModelState),
      c ∉ ds.map AircraftData.callsign →
      dictGet c (ds.foldl (reconcileStep dt ct) st).aircraft =
        dictGet c st.aircraft := by
  intro ds
  induction ds with
  | nil => intro st _; rfl
  | cons d rest ih =>
    intro st hnm
    rw [List.foldl_cons]
    rw [ih _ (fun h => hnm (by rw [List.map_cons]; exact List.mem_cons_of_mem _ h))]
    exact reconcileStep_dictGet_ne dt ct st d c
      (fun h => hnm (by rw [List.map_cons, h]; exact List.mem_cons_self _ _))

theorem foldReconcile_dictGet_new (dt ct : ℝ) (c : String) :
    ∀ (ds : List AircraftData) (st : WorldModelState),
      (ds.map AircraftData.callsign).Nodup →
      c ∈ ds.map AircraftData.callsign →
      dictGet c st.aircraft = none →
      ∃ d, d.callsign = c ∧
        dictGet c (ds.foldl (reconcileStep dt ct) st).aircraft =
          some (newTrack d ct) := by
  intro ds
  induction ds with
  | nil => intro st _ hin; cases hin
  | cons d rest ih =>
    intro st hnodup hin hnone
    rw [List.map_cons, List.nodup_cons] at hnodup
    rw [List.foldl_cons]
    rcases List.mem_cons.mp (by rw [List.map_cons] at hin; exact hin) with hdc | htail
    · refine ⟨d, hdc.symm, ?_⟩
      rw [foldReconcile_dictGet_not_mem dt ct c rest _ (by rw [hdc]; exact hnodup.1)]
      show dictGet c (reconcileStep dt ct st d).aircraft = _
      unfold reconcileStep
      rw [if_neg (by rw [← hdc, hnone]; simp)]
      show dictGet c (dictInsert st.aircraft d.callsign (newTrack d ct)) = _
      rw [← hdc]
      exact dictGet_dictInsert_self st.aircraft c (newTrack d ct)
    · have hne : c ≠ d.callsign := by
        intro h
        exact hnodup.1 (h ▸ htail)
      refine ih _ hnodup.2 htail ?_
      rw [reconcileStep_dictGet_ne dt ct st d c hne]
      exact hnone

theorem reconcileAircraft_eq_fold (st : WorldModelState) (pd : PerceptionData)
    (dt ct : ℝ) :
    reconcileAircraft st pd dt ct =
      { (pd.aircraft.foldl (reconcileStep dt ct) st) with
        aircraft := (pd.aircraft.foldl (reconcileStep dt ct) st).aircraft.filter
          (fun p => p.1 ∈ pd.aircraft.map AircraftData.callsign) } := rfl

/-- In the cycle a callsign first appears, the reconciled registry holds a
fresh track for it (empty history), and the registry keeps the key-callsign
invariant with duplicate-free keys. -/
theorem reconcile_new_track (st : WorldModelState) (pd : PerceptionData)
    (dt ct : ℝ) (c : String)
    (hinv : ∀ p ∈ st.aircraft, p.2.callsign = p.1)
    (hkeys : (st.aircraft.map Prod.fst).Nodup)
    (hsnap : (pd.aircraft.map AircraftData.callsign).Nodup)
    (hunk : dictGet c st.aircraft = none)
    (hin : c ∈ pd.aircraft.map AircraftData.callsign) :
    (∃ d : AircraftData, d.callsign = c ∧
      dictGet c (reconcileAircraft st pd dt ct).aircraft = some (newTrack d ct)) ∧
    (∀ p ∈ (reconcileAircraft st pd dt ct).aircraft, p.2.callsign = p.1) ∧
    ((reconcileAircraft st pd dt ct).aircraft.map Prod.fst).Nodup := by
  rw [reconcileAircraft_eq_fold]
  obtain ⟨hfinv, hfkeys⟩ := foldReconcile_inv dt ct pd.aircraft st hinv hkeys
  refine ⟨?_, ?_, ?_⟩
  · obtain ⟨d, hdc, hget⟩ := foldReconcile_dictGet_new dt ct c pd.aircraft st hsnap hin hunk
    refine ⟨d, hdc, ?_⟩
    show dictGet c (List.filter _ _) = _
    rw [dictGet_filter_detected _ c hin]
    exact hget
  · intro p hp
    exact hfinv p (List.mem_of_mem_filter hp)
  · show (List.map Prod.fst (List.filter _ _)).Nodup
    exact hfkeys.sublist ((List.filter_sublist _).map Prod.fst)

/-- C10: an aircraft whose callsign is not yet tracked and which appears in
the snapshot is registered by `update_from_perception` as a fresh track:
its current position is set but its `position_history` is empty, hence
`velocity_vector` and `predict_position` return `None`; consequently no
predicted conflict over the resulting registry can name that callsign in the
cycle it first appears. (Hypotheses: the registry maps each key to an
aircraft bearing that callsign with duplicate-free keys — both hold of the
initial empty registry and are preserved by every cycle — and the snapshot
lists duplicate-free callsigns.) -/
theorem C10_new_track_no_prediction (s : WorldModelState) (pd : PerceptionData)
    (t : ℝ) (c : String)
    (hinv : ∀ p ∈ s.aircraft, p.2.callsign = p.1)
    (hkeys : (s.aircraft.map Prod.fst).Nodup)
    (hsnap : (pd.aircraft.map AircraftData.callsign).Nodup)
    (hunk : dictGet c s.aircraft = none)
    (hin : c ∈ pd.aircraft.map AircraftData.callsign) :
    (∃ ac : Aircraft,
      dictGet c (updateFromPerception s pd t).aircraft = some ac ∧
      ac.position.isSome = true ∧ ac.position_history = [] ∧
      ac.velocity_vector = none ∧ ∀ u : ℝ, ac.predict_position u = none) ∧
    ∀ rules : ConflictRule,
      ∀ cfl ∈ predictConflicts rules
          ((updateFromPerception s pd t).aircraft.map Prod.snd),
        cfl.aircraft1 ≠ c ∧ cfl.aircraft2 ≠ c := by
  have hstep : ∀ R : WorldModelState,
      (∃ d : AircraftData, d.callsign = c ∧
        dictGet c R.aircraft = some (newTrack d t)) →
      (∀ p ∈ R.aircraft, p.2.callsign = p.1) →
      (R.aircraft.map Prod.fst).Nodup →
      (∃ ac : Aircraft,
        dictGet c (detectConflictsStep R).aircraft = some ac ∧
        ac.position.isSome = true ∧ ac.position_history = [] ∧
        ac.velocity_vector = none ∧ ∀ u : ℝ, ac.predict_position u = none) ∧
      ∀ rules : ConflictRule,
        ∀ cfl ∈ predictConflicts rules
            ((detectConflictsStep R).aircraft.map Prod.snd),
          cfl.aircraft1 ≠ c ∧ cfl.aircraft2 ≠ c := by
    intro R hex hrinv hrkeys
    obtain ⟨d, hdc, hget⟩ := hex
    rw [detectConflictsStep_aircraft]
    constructor
    · exact ⟨newTrack d t, hget, rfl, rfl,
        velocity_vector_of_empty_history _ rfl,
        fun u => predict_position_of_no_velocity _
          (velocity_vector_of_empty_history _ rfl) u⟩
    · intro rules cfl hcfl
      refine predictConflicts_not_names rules _ c ?_ cfl hcfl
      intro ac hac hacc u
      rw [List.mem_map] at hac
      obtain ⟨p, hp, hpac⟩ := hac
      have hp1 : p.1 = c := by
        rw [← hrinv p hp, hpac]
        exact hacc
      have hpv : p.2 = newTrack d t :=
        value_eq_of_dictGet R.aircraft hrkeys c (newTrack d t) hget p hp hp1
      rw [← hpac, hpv]
      exact predict_position_of_no_velocity _
        (velocity_vector_of_empty_history _ rfl) u
  have key : ∀ st : WorldModelState, st.aircraft = s.aircraft →
      (∃ ac : Aircraft,
        dictGet c (detectConflictsStep
          (reconcileAircraft st pd (t - s.last_update_time) t)).aircraft = some ac ∧
        ac.position.isSome = true ∧ ac.position_history = [] ∧
        ac.velocity_vector = none ∧ ∀ u : ℝ, ac.predict_position u = none) ∧
      ∀ rules : ConflictRule,
        ∀ cfl ∈ predictConflicts rules
            ((detectConflictsStep
              (reconcileAircraft st pd (t - s.last_update_time) t)).aircraft.map Prod.snd),
          cfl.aircraft1 ≠ c ∧ cfl.aircraft2 ≠ c := by
    intro st hst
    obtain ⟨⟨d, hdc, hget⟩, hfinv, hfkeys⟩ :=
      reconcile_new_track st pd (t - s.last_update_time) t c
        (by rw [hst]; exact hinv) (by rw [hst]; exact hkeys) hsnap
        (by rw [hst]; exact hunk) hin
    exact hstep _ ⟨d, hdc, hget⟩ hfinv hfkeys
  exact key _ (by rcases pd.wind with _ | w <;> rcases pd.active_runways with _ | rs <;> rfl)

/-- Witness for C10: starting from the empty world model, the two-plane
snapshot registers the unknown callsign AAL1 at time 100 as a fresh,
prediction-free track named by no predicted conflict. -/
theorem C10_witness :
    (∀ p ∈ ({} : WorldModelState).aircraft, p.2.callsign = p.1) ∧
    (({} : WorldModelState).aircraft.map Prod.fst).Nodup ∧
    (pdTwoPlanes.aircraft.map AircraftData.callsign).Nodup ∧
    dictGet "AAL1" ({} : WorldModelState).aircraft = none ∧
    "AAL1" ∈ pdTwoPlanes.aircraft.map AircraftData.callsign ∧
    ((∃ ac : Aircraft,
        dictGet "AAL1" (updateFromPerception {} pdTwoPlanes 100).aircraft = some ac ∧
        ac.position.isSome = true ∧ ac.position_history = [] ∧
        ac.velocity_vector = none ∧ ∀ u : ℝ, ac.predict_position u = none) ∧
      ∀ rules : ConflictRule,
        ∀ cfl ∈ predictConflicts rules
            ((updateFromPerception {} pdTwoPlanes 100).aircraft.map Prod.snd),
          cfl.aircraft1 ≠ "AAL1" ∧ cfl.aircraft2 ≠ "AAL1") :=
  ⟨fun p hp => absurd hp (List.not_mem_nil p),
   List.nodup_nil,
   by decide,
   rfl,
   by decide,
   C10_new_track_no_prediction {} pdTwoPlanes 100 "AAL1"
     (fun p hp => absurd hp (List.not_mem_nil p))
     List.nodup_nil (by decide) rfl (by decide)⟩

/-- Witness for C9's amended theorem at the no-topology state. -/
theorem C9_witness :
    (dictGet "AAL1" sNoTopo.aircraft = none →
      assignRunway sNoTopo "AAL1" "04L" = (false, sNoTopo)) ∧
    (∀ t, sNoTopo.topology = some t → dictGet "04L" t.runways = none →
      assignRunway sNoTopo "AAL1" "04L" = (false, sNoTopo)) ∧
    (∀ ac, dictGet "AAL1" sNoTopo.aircraft = some ac →
      ¬ runwayUnknown sNoTopo "04L" →
      (assignRunway sNoTopo "AAL1" "04L").1 = true ∧
      dictGet "AAL1" (assignRunway sNoTopo "AAL1" "04L").2.aircraft =
        some { ac with assigned_runway := some "04L" } ∧
      (∀ c', c' ≠ "AAL1" →
        dictGet c' (assignRunway sNoTopo "AAL1" "04L").2.aircraft =
          dictGet c' sNoTopo.aircraft) ∧
      (assignRunway sNoTopo "AAL1" "04L").2.topology = sNoTopo.topology ∧
      (assignRunway sNoTopo "AAL1" "04L").2.active_conflicts =
        sNoTopo.active_conflicts) :=
  C9_assign_runway sNoTopo "AAL1" "04L"

end

end NeurlaPlay
